import Mathlib

/-!
Verification of the client-side batcher (`src/yb/client/batcher.cc`).

The development shallowly embeds the batcher's data model and methods as
executable Lean definitions.  Machine state that the C++ code keeps behind a
mutex is modelled as a record, and each public entry point (`Add`,
`FlushAsync`, `TabletLookupFinished`, `Abort`, RPC response handling, ...)
becomes a function from batcher state to batcher state paired with the list
of statuses delivered to the flush callback by that call.  External
collaborators (meta-cache, session, transaction, RPC transport) are out of
scope of the source file; where their behaviour matters it is represented by
event inputs or, when explicitly noted, modelled from the specification.
-/

set_option maxHeartbeats 1000000

namespace YBBatcher

/-- States of the batcher state machine (`BatcherState`, used throughout
batcher.cc). -/
inductive BatcherState
  | kGatheringOps
  | kResolvingTablets
  | kTransactionPrepare
  | kTransactionReady
  | kComplete
  | kAborted
deriving DecidableEq, Repr

/-- Per-op states used by batcher.cc (`InFlightOpState`): an op is looking up
its tablet until the lookup completes, after which it is buffered for
dispatch. -/
inductive InFlightOpState
  | kLookingUpTablet
  | kBufferedToTabletServer
deriving DecidableEq, Repr

/-- Operation classes (`OpGroup` from yb_op.h; the header is outside `src/`,
the constructor order below follows the spec's listing
{write, leader read, consistent-prefix read}, which determines the result of
the C++ `<` comparison on the enum used by the sort comparator). -/
inductive OpGroup
  | kWrite
  | kLeaderRead
  | kConsistentPrefixRead
deriving DecidableEq, Repr

/-- Numeric value of the `OpGroup` enum, used for the `<` comparison in the
sort comparator of `FlushBuffersIfReady`. -/
def OpGroup.toNat : OpGroup → Nat
  | .kWrite => 0
  | .kLeaderRead => 1
  | .kConsistentPrefixRead => 2

/-- Operation kinds (`YBOperation::Type`), in the order of the `switch` in
`Batcher::Add`. -/
inductive YBOperationType
  | QL_READ
  | QL_WRITE
  | REDIS_READ
  | REDIS_WRITE
  | PGSQL_READ
  | PGSQL_WRITE
deriving DecidableEq, Repr

/-- Status codes relevant to the batcher (subset of yb::Status codes that
batcher.cc produces or relays). -/
inductive ErrorCode
  | Ok
  | IOError
  | InternalError
  | Aborted
  | Combined
  | NotFound
  | ServiceUnavailable
deriving DecidableEq, Repr

/-- Client error codes (`ClientErrorCode` from client_error.h) attached to
statuses produced by batcher.cc. -/
inductive ClientErrorCode
  | kTablePartitionListIsStale
  | kAbortedBatchDueToFailedTabletLookup
  | kTablePartitionListVersionDoesNotMatch
deriving DecidableEq, Repr

/-- A yb::Status as observed through the batcher: a code, a message, and an
optional embedded client error code (`STATUS_EC_FORMAT` / `ClientError`). -/
structure Status where
  code : ErrorCode
  msg : String
  clientError : Option ClientErrorCode
deriving DecidableEq, Repr

/-- Status::OK. -/
def Status.OK : Status := ⟨ErrorCode.Ok, "", none⟩

/-- Status::ok(). -/
def Status.isOk (s : Status) : Bool := s.code = ErrorCode.Ok

/-- Status::CloneAndPrepend (used by `CombineErrorUnlocked`). -/
def Status.CloneAndPrepend (s : Status) (m : String) : Status :=
  { s with msg := m ++ ": " ++ s.msg }

/-- The constant `Batcher::kErrorReachingOutToTServersMsg`. -/
def kErrorReachingOutToTServersMsg : String :=
  "Errors occurred while reaching out to the tablet servers"

/-- The generic IOError summary produced by `CheckForFinishedFlush` when some
op failed and combine mode is off. -/
def ioSummaryError : Status :=
  ⟨ErrorCode.IOError, kErrorReachingOutToTServersMsg, none⟩

/-- The retriable abort status built in `FlushBuffersIfReady` when
`had_errors_` is set. -/
def tabletResolutionFailedStatus : Status :=
  ⟨ErrorCode.Aborted, "Tablet resolution failed for some ops, aborted the whole batch.",
    some ClientErrorCode.kAbortedBatchDueToFailedTabletLookup⟩

/-- The status used by `TabletLookupFinished` for ops completing after the
batcher was aborted: `STATUS(Aborted, "Batch aborted")`. -/
def batchAbortedStatus : Status := ⟨ErrorCode.Aborted, "Batch aborted", none⟩

/-- The `STATUS(Combined, "Multiple failures")` of `CombineErrorUnlocked`. -/
def multipleFailuresStatus : Status := ⟨ErrorCode.Combined, "Multiple failures", none⟩

/-- The InternalError produced by `TabletLookupFinished` when the resolved
tablet's partition does not contain the op's partition key (interpolated
details of the C++ message are elided; only the code is observable to the
claims). -/
def rowNotInPartitionStatus : Status :=
  ⟨ErrorCode.InternalError, "Row not in partition", none⟩

/-- Printable name of a batcher state, used in the wrong-state message of
`Batcher::Add`. -/
def BatcherState.describe : BatcherState → String
  | .kGatheringOps => "kGatheringOps"
  | .kResolvingTablets => "kResolvingTablets"
  | .kTransactionPrepare => "kTransactionPrepare"
  | .kTransactionReady => "kTransactionReady"
  | .kComplete => "kComplete"
  | .kAborted => "kAborted"

/-- The error returned by `Batcher::Add` outside the gathering state:
`STATUS_FORMAT(InternalError, "Adding op to batcher in a wrong state: $0", state_)`.
This is the status the specification calls *WrongState* (there is no status
code of that name in the code base; the spec's *WrongState* names exactly
this programming-fault status). -/
def addWrongStateError (st : BatcherState) : Status :=
  ⟨ErrorCode.InternalError, "Adding op to batcher in a wrong state: " ++ st.describe, none⟩

/-- The abort status built by `FlushBuffersIfReady` when an op's recorded
partition list version does not match the tablet's (message details
elided). -/
def partitionListVersionMismatchStatus : Status :=
  ⟨ErrorCode.Aborted, "Operation requested table partition list version does not match ours",
    some ClientErrorCode.kTablePartitionListVersionDoesNotMatch⟩

/-- Modelled from the spec: `ShouldSessionRetryError` (session.cc, not under
`src/`) — the spec states that *Aborted* carrying
*AbortedBatchDueToFailedTabletLookup* is "retriable at session". -/
def ShouldSessionRetryError (s : Status) : Bool :=
  s.clientError = some ClientErrorCode.kAbortedBatchDueToFailedTabletLookup

/-- Strict lexicographic comparison of byte strings (std::string operator<),
used by `Partition::ContainsKey`. -/
def lexLt : List Nat → List Nat → Bool
  | [], [] => false
  | [], _ :: _ => true
  | _ :: _, [] => false
  | a :: as, b :: bs => if a < b then true else if a = b then lexLt as bs else false

/-- Modelled from the spec: `Partition::ContainsKey` (partition.cc, not under
`src/`) — the partition contains a key iff `start ≤ key` and either the end
bound is empty (unbounded) or `key < end`. -/
def Partition.ContainsKey (partStart partEnd key : List Nat) : Bool :=
  !lexLt key partStart && (partEnd.isEmpty || lexLt key partEnd)

/-- Modelled from the spec: `PartitionSchema::DecodeMultiColumnHashValue`
(partition.cc, not under `src/`) — decodes the multi-column hash value from
the partition key bytes.  Claims only compare stamped values against this
function, so it stands in abstractly for the real decoding. -/
def DecodeMultiColumnHashValue (partitionKey : List Nat) : Nat :=
  partitionKey.foldl (fun acc byte => acc * 256 + byte) 0

/-- A resolved tablet (`RemoteTablet`).  The `id` field stands for the C++
pointer identity used by the sort comparator and the grouping loop; distinct
tablet objects are modelled with distinct ids. -/
structure RemoteTablet where
  id : Nat
  partitionListVersion : Nat
  partitionStart : List Nat
  partitionEnd : List Nat
deriving DecidableEq, Repr

/-- Decidable equality for `Except`, needed to derive decidable equality for
records holding fallible-call results. -/
instance {ε α : Type} [DecidableEq ε] [DecidableEq α] : DecidableEq (Except ε α) := by
  intro x y
  cases x <;> cases y
  case error.error a b =>
    exact if h : a = b then .isTrue (by rw [h]) else .isFalse (by intro hc; cases hc; exact h rfl)
  case error.ok a b => exact .isFalse (by intro hc; cases hc)
  case ok.error a b => exact .isFalse (by intro hc; cases hc)
  case ok.ok a b =>
    exact if h : a = b then .isTrue (by rw [h]) else .isFalse (by intro hc; cases hc; exact h rfl)

/-- A user operation (`YBOperation`) as observed by the batcher.  The
fallible calls `GetPartitionKey` and `MaybeRefreshTablePartitionList` are
modelled by their results since their implementations live outside
batcher.cc. -/
structure YBOperation where
  opType : YBOperationType
  group : OpGroup
  isHashPartitioning : Bool
  getPartitionKey : Except Status (List Nat)
  maybeRefreshResult : Except Status Bool
  tabletHint : Option RemoteTablet
  partitionListVersion : Option Nat
  hashCode : Option Nat
deriving DecidableEq, Repr

/-- An in-flight op (`InFlightOp`).  `opId` stands for the shared-pointer
identity; `Batcher.AddInFlightOp` assigns it together with the sequence
number, which is unique within a batcher. -/
structure InFlightOp where
  opId : Nat
  ybOp : YBOperation
  partitionKey : List Nat
  sequenceNumber : Nat
  tablet : Option RemoteTablet
  state : InFlightOpState
deriving DecidableEq, Repr

/-- Tablet pointer identity of an op (`op->tablet.get()`); ops in `ops_queue_`
always have a resolved tablet, 0 is an arbitrary total-function default. -/
def InFlightOp.tabletId (op : InFlightOp) : Nat :=
  (op.tablet.map RemoteTablet.id).getD 0

/-- Current partition list version of an op's resolved tablet
(`it_tablet->partition_list_version()`). -/
def InFlightOp.tabletVersion (op : InFlightOp) : Nat :=
  (op.tablet.map RemoteTablet.partitionListVersion).getD 0

/-- The sort comparator of `FlushBuffersIfReady` (the lambda passed to
`std::sort`): by tablet pointer, then operation class, then sequence
number. -/
def opLt (lhs rhs : InFlightOp) : Bool :=
  if lhs.tabletId = rhs.tabletId then
    if lhs.ybOp.group ≠ rhs.ybOp.group then lhs.ybOp.group.toNat < rhs.ybOp.group.toNat
    else lhs.sequenceNumber < rhs.sequenceNumber
  else lhs.tabletId < rhs.tabletId

/-- Insertion of one op into a list sorted by `opLt`.  Together with
`sortOps` this models the `std::sort` call of `FlushBuffersIfReady`: any
comparison sort agrees on sequences whose sort keys are distinct, which is
the case in the batcher because sequence numbers are unique. -/
def insertSorted (a : InFlightOp) : List InFlightOp → List InFlightOp
  | [] => [a]
  | b :: l => if opLt a b then a :: b :: l else b :: insertSorted a l

/-- The sort of `ops_queue_` performed by `FlushBuffersIfReady`. -/
def sortOps : List InFlightOp → List InFlightOp
  | [] => []
  | a :: l => insertSorted a (sortOps l)

/-- The strict lexicographic order on the sort key `(tablet, operation
class, sequence number)`, as a proposition: the specification of `opLt`. -/
def opKeyLt (a b : InFlightOp) : Prop :=
  a.tabletId < b.tabletId ∨
  (a.tabletId = b.tabletId ∧ a.ybOp.group.toNat < b.ybOp.group.toNat) ∨
  (a.tabletId = b.tabletId ∧ a.ybOp.group.toNat = b.ybOp.group.toNat ∧
    a.sequenceNumber < b.sequenceNumber)

/-- The non-strict companion of `opKeyLt`: `a` may stand before `b` in the
sorted queue. -/
def opSortedLe (a b : InFlightOp) : Prop := ¬ opKeyLt b a

/-- Adjacent dispatched groups split at a change of `(tablet, operation
class)` — used to state maximality of the contiguous groups. -/
def boundaryRel (g1 g2 : List InFlightOp) : Prop :=
  ∀ x y, g1.getLast? = some x → g2.head? = some y →
    ¬ (x.tabletId = y.tabletId ∧ x.ybOp.group = y.ybOp.group)

/-- The partition-list-version test of the grouping loop in
`FlushBuffersIfReady`: the recorded version is present and differs from the
tablet's current version. -/
def versionMismatch (op : InFlightOp) : Bool :=
  match op.ybOp.partitionListVersion with
  | some v => v ≠ op.tabletVersion
  | none => false

/-- The grouping loop of `FlushBuffersIfReady`, carried out on the sorted
queue: `cur` is the group being accumulated (`[group_start, it)`), whose
members all share `(curTablet, curGroup)`.  A partition-list-version mismatch
aborts the whole computation; a change of tablet or class closes the current
group.  (On the abort path the C++ code leaves partially built groups in
`ops_info_.groups`; they are unobservable because the batcher is aborted, and
are discarded here.) -/
def groupsLoop (cur : List InFlightOp) (curTablet : Nat) (curGroup : OpGroup) :
    List InFlightOp → Except Status (List (List InFlightOp))
  | [] => .ok [cur]
  | op :: rest =>
    if versionMismatch op then .error partitionListVersionMismatchStatus
    else if curTablet ≠ op.tabletId ∨ curGroup ≠ op.ybOp.group then
      match groupsLoop [op] op.tabletId op.ybOp.group rest with
      | .error e => .error e
      | .ok gs => .ok (cur :: gs)
    else groupsLoop (cur ++ [op]) curTablet curGroup rest

/-- Partition of the sorted `ops_queue_` into maximal contiguous groups
sharing `(tablet, operation class)`, including the per-op
partition-list-version check (the loop of `FlushBuffersIfReady` lines
552-575). -/
def makeGroups : List InFlightOp → Except Status (List (List InFlightOp))
  | [] => .ok []
  | op :: rest =>
    if versionMismatch op then .error partitionListVersionMismatchStatus
    else groupsLoop [op] op.tabletId op.ybOp.group rest

/-- An RPC built by `CreateRpc` for one group: the in-flight ops it owns (in
group order), the operation class deciding the RPC variant, and the
consistent-read flag.  Threading flags (`allow_local_calls_in_curr_thread`)
do not affect the modelled state and are omitted. -/
structure Rpc where
  ops : List InFlightOp
  kind : OpGroup
  needConsistentRead : Bool
deriving DecidableEq, Repr

/-- The batcher's mutable state (fields of class `Batcher` guarded by
`mutex_`), together with bookkeeping that the surrounding system holds in the
real program:

* `flushCallback` models whether `flush_callback_` currently holds a callable
  (a moved-from `std::function` is empty);
* `sentRpcs` / `completedRpcs` record the RPCs handed to `SendRpc` and the
  ones whose responses have been processed;
* `pendingLookups` records op ids with an asynchronous `LookupTabletByKey`
  in flight at the meta-cache;
* `staleMarked` records ops on which `MarkTablePartitionListAsStale` was
  invoked;
* `flushRequested` records that `FlushAsync` was called (ghost, for stating
  the exactly-once callback property);
* `combineBatcherErrors` is `FLAGS_TEST_combine_batcher_errors`.

The transaction pointer is null in this model (the claims quantify over
`Add` / `FlushAsync` / lookup / RPC / `Abort` interleavings only), so
`Prepare` always succeeds synchronously in `ExecuteOperations`. -/
structure Batcher where
  state : BatcherState
  ops : List InFlightOp
  opsQueue : List InFlightOp
  outstandingLookups : Nat
  hadErrors : Bool
  combinedError : Status
  flushCallback : Bool
  nextOpSequenceNumber : Nat
  errorCollector : List (Nat × Status)
  groups : List (List InFlightOp)
  sentRpcs : List Rpc
  completedRpcs : List Nat
  pendingLookups : List Nat
  staleMarked : List Nat
  flushRequested : Bool
  combineBatcherErrors : Bool
  forceConsistentRead : Bool
deriving DecidableEq, Repr

/-- A freshly constructed batcher (constructor at batcher.cc lines 115-127):
gathering state, no ops, sequence counter at zero. -/
def initialBatcher (combineBatcherErrors forceConsistentRead : Bool) : Batcher where
  state := BatcherState.kGatheringOps
  ops := []
  opsQueue := []
  outstandingLookups := 0
  hadErrors := false
  combinedError := Status.OK
  flushCallback := false
  nextOpSequenceNumber := 0
  errorCollector := []
  groups := []
  sentRpcs := []
  completedRpcs := []
  pendingLookups := []
  staleMarked := []
  flushRequested := false
  combineBatcherErrors := combineBatcherErrors
  forceConsistentRead := forceConsistentRead

/-- Textual description of an op (`InFlightOp::ToString`), used only as the
prepended text in combine mode; the exact rendering is not load-bearing. -/
def InFlightOp.describe (op : InFlightOp) : String :=
  "InFlightOp with sequence number " ++ toString op.sequenceNumber

/-- `Batcher::CombineErrorUnlocked`: record the per-op error in the error
collector; in combine mode fold it into `combined_error_`; set
`had_errors_`. -/
def Batcher.CombineErrorUnlocked (b : Batcher) (op : InFlightOp) (s : Status) : Batcher :=
  let b1 := { b with errorCollector := b.errorCollector ++ [(op.opId, s)] }
  let b2 :=
    if b1.combineBatcherErrors then
      if b1.combinedError.isOk then
        { b1 with combinedError := s.CloneAndPrepend op.describe }
      else if b1.combinedError.code ≠ ErrorCode.Combined ∧ b1.combinedError.code ≠ s.code then
        { b1 with combinedError := multipleFailuresStatus }
      else b1
    else b1
  { b2 with hadErrors := true }

/-- `Batcher::MarkInFlightOpFailedUnlocked`: remove the op from `ops_`
(`CHECK_EQ(1, ops_.erase(op))` — callers pass ops present in the set), tag
the user op when the failure is `kTablePartitionListIsStale`, then record the
error. -/
def Batcher.MarkInFlightOpFailedUnlocked (b : Batcher) (op : InFlightOp) (s : Status) : Batcher :=
  let b1 := { b with ops := b.ops.filter (fun o => o.opId ≠ op.opId) }
  let b2 :=
    if s.clientError = some ClientErrorCode.kTablePartitionListIsStale then
      { b1 with staleMarked := b1.staleMarked ++ [op.opId] }
    else b1
  b2.CombineErrorUnlocked op s

/-- `Batcher::RunCallback`: the stored callback is moved out (leaving
`flush_callback_` empty) and invoked with the given status — the emitted
list records the invocation.  (Submission to the callback thread pool versus
inline execution does not change what is invoked with which status.) -/
def Batcher.RunCallback (b : Batcher) (status : Status) : Batcher × List Status :=
  ({ b with flushCallback := false }, [status])

/-- `Batcher::Abort`: set the state to `kAborted`, fail every op currently
buffered to a tablet server (ops still looking up their tablet are failed by
their own completion path), then, if a callback is installed, run it with the
abort status. -/
def Batcher.Abort (b : Batcher) (status : Status) : Batcher × List Status :=
  let b1 := { b with state := BatcherState.kAborted }
  let toAbort := b1.ops.filter (fun o => o.state = InFlightOpState.kBufferedToTabletServer)
  let b2 := toAbort.foldl (fun acc op => acc.MarkInFlightOpFailedUnlocked op status) b1
  if b2.flushCallback then b2.RunCallback status else (b2, [])

/-- The final status computed by `CheckForFinishedFlush` (lines 224-232): the
combined test-mode error if set, else the generic IOError if any op failed,
else OK. -/
def Batcher.summaryStatus (b : Batcher) : Status :=
  if ¬ b.combinedError.isOk then b.combinedError
  else if b.hadErrors then ioSummaryError
  else Status.OK

/-- `Batcher::CheckForFinishedFlush`: nothing happens while ops remain; the
check is ignored in `kComplete` / `kGatheringOps` / `kAborted`; any state
other than `kResolvingTablets` / `kTransactionReady` is a logged fault;
otherwise the batcher transitions to `kComplete` and the callback runs with
the summary status.  `session->FlushFinished` is external. -/
def Batcher.CheckForFinishedFlush (b : Batcher) : Batcher × List Status :=
  if ¬ b.ops.isEmpty then (b, [])
  else if b.state = BatcherState.kComplete ∨ b.state = BatcherState.kGatheringOps ∨
      b.state = BatcherState.kAborted then (b, [])
  else if ¬ (b.state = BatcherState.kResolvingTablets ∨
      b.state = BatcherState.kTransactionReady) then (b, [])
  else
    let b1 := { b with state := BatcherState.kComplete }
    b1.RunCallback b1.summaryStatus

/-- `Batcher::CreateRpc` for one group: the RPC owns the group's ops; its
variant is decided by the class of the group's first op (`CHECK(group.begin
!= group.end)` — groups are never empty). -/
def CreateRpc (g : List InFlightOp) (needConsistentRead : Bool) : Rpc :=
  match g with
  | [] => ⟨[], OpGroup.kWrite, needConsistentRead⟩
  | op :: _ => ⟨g, op.ybOp.group, needConsistentRead⟩

/-- `Batcher::ExecuteOperations` with no transaction (`Prepare` is skipped):
require `kTransactionPrepare` (anything else means the batcher was aborted),
move to `kTransactionReady`, and if the queue is non-empty build one RPC per
group — consistent read is needed if forced or if there is more than one
group — clear `ops_queue_` and send the RPCs. -/
def Batcher.ExecuteOperations (b : Batcher) : Batcher × List Status :=
  if b.state ≠ BatcherState.kTransactionPrepare then (b, [])
  else
    let b1 := { b with state := BatcherState.kTransactionReady }
    if b1.opsQueue.isEmpty then (b1, [])
    else
      let needConsistentRead := b1.forceConsistentRead || decide (b1.groups.length > 1)
      let rpcs := b1.groups.map (fun g => CreateRpc g needConsistentRead)
      ({ b1 with opsQueue := [], sentRpcs := b1.sentRpcs ++ rpcs }, [])

/-- `Batcher::FlushBuffersIfReady`: return unless all lookups completed and
the state is `kResolvingTablets`; with an empty queue move straight to
`kTransactionReady`; otherwise enter `kTransactionPrepare` and either abort
(lookup errors, or a partition-list-version mismatch discovered by the
grouping loop) or sort the queue, build the groups, and execute. -/
def Batcher.FlushBuffersIfReady (b : Batcher) : Batcher × List Status :=
  if b.outstandingLookups ≠ 0 then (b, [])
  else if b.state ≠ BatcherState.kResolvingTablets then (b, [])
  else if b.opsQueue.isEmpty then ({ b with state := BatcherState.kTransactionReady }, [])
  else
    let b1 := { b with state := BatcherState.kTransactionPrepare }
    if b1.hadErrors then b1.Abort tabletResolutionFailedStatus
    else
      let sorted := sortOps b1.opsQueue
      let b2 := { b1 with opsQueue := sorted }
      match makeGroups sorted with
      | .error e => b2.Abort e
      | .ok gs => Batcher.ExecuteOperations { b2 with groups := b2.groups ++ gs }

/-- Replacement of an op record inside `ops_` — models in-place mutation
through the shared pointer. -/
def replaceOp (ops : List InFlightOp) (op : InFlightOp) : List InFlightOp :=
  ops.map (fun o => if o.opId = op.opId then op else o)

/-- `Batcher::TabletLookupFinished`: decrement `outstanding_lookups_`; if the
batcher was aborted, fail the op and return; in any state other than
`kResolvingTablets` / `kGatheringOps` log and return; on a successful lookup
verify the tablet's partition contains the partition key (demoting the result
to an InternalError otherwise) and then buffer the op via the monotonic
state transition; on failure mark the op failed.  After releasing the lock:
call the finish check if the op failed, and the readiness check if this was
the last outstanding lookup.  (The test-only random failure injection runs
with probability 0 by default and is elided.) -/
def Batcher.TabletLookupFinished (b : Batcher) (op : InFlightOp)
    (lookupResult : Except Status RemoteTablet) : Batcher × List Status :=
  let b0 := { b with outstandingLookups := b.outstandingLookups - 1 }
  let allLookupsFinished := b0.outstandingLookups = 0
  if b0.state = BatcherState.kAborted then
    (b0.MarkInFlightOpFailedUnlocked op batchAbortedStatus, [])
  else if ¬ (b0.state = BatcherState.kResolvingTablets ∨
      b0.state = BatcherState.kGatheringOps) then (b0, [])
  else
    let checked : Except Status RemoteTablet :=
      match lookupResult with
      | .ok tablet =>
        if ¬ Partition.ContainsKey tablet.partitionStart tablet.partitionEnd op.partitionKey
        then .error rowNotInPartitionStatus
        else .ok tablet
      | .error e => .error e
    match checked with
    | .ok tablet =>
      let op1 := { op with tablet := some tablet }
      let b1 :=
        if op1.state = InFlightOpState.kLookingUpTablet then
          let op2 := { op1 with state := InFlightOpState.kBufferedToTabletServer }
          { b0 with ops := replaceOp b0.ops op2, opsQueue := b0.opsQueue ++ [op2] }
        else
          { b0 with ops := replaceOp b0.ops op1 }
      if allLookupsFinished then b1.FlushBuffersIfReady else (b1, [])
    | .error e =>
      let b1 := b0.MarkInFlightOpFailedUnlocked op e
      let r1 := b1.CheckForFinishedFlush
      if allLookupsFinished then
        let r2 := r1.1.FlushBuffersIfReady
        (r2.1, r1.2 ++ r2.2)
      else r1

/-- `PartitionSchema::DecodeMultiColumnHashValue` stamping of `Batcher::Add`
(the `switch` at lines 304-335), applied when the table is hash-partitioned:
writes of every kind are stamped unconditionally; QL and PGSQL reads only
when the partition key is non-empty; the `REDIS_READ` case of the source has
no emptiness guard. -/
def stampHashCode (ybOp : YBOperation) (partitionKey : List Nat) : YBOperation :=
  if ¬ ybOp.isHashPartitioning then ybOp
  else
    match ybOp.opType with
    | .QL_READ =>
      if ¬ partitionKey.isEmpty then
        { ybOp with hashCode := some (DecodeMultiColumnHashValue partitionKey) }
      else ybOp
    | .QL_WRITE => { ybOp with hashCode := some (DecodeMultiColumnHashValue partitionKey) }
    | .REDIS_READ => { ybOp with hashCode := some (DecodeMultiColumnHashValue partitionKey) }
    | .REDIS_WRITE => { ybOp with hashCode := some (DecodeMultiColumnHashValue partitionKey) }
    | .PGSQL_READ =>
      if ¬ partitionKey.isEmpty then
        { ybOp with hashCode := some (DecodeMultiColumnHashValue partitionKey) }
      else ybOp
    | .PGSQL_WRITE => { ybOp with hashCode := some (DecodeMultiColumnHashValue partitionKey) }

/-- `Batcher::AddInFlightOp`: insert the op into `ops_`, assign the next
sequence number, and count the outstanding lookup (the op id is the sequence
number — both stand for the op's identity, assigned exactly here). -/
def Batcher.AddInFlightOp (b : Batcher) (op : InFlightOp) : Batcher × InFlightOp :=
  let op1 := { op with
    opId := b.nextOpSequenceNumber,
    sequenceNumber := b.nextOpSequenceNumber }
  ({ b with
      ops := b.ops ++ [op1],
      nextOpSequenceNumber := b.nextOpSequenceNumber + 1,
      outstandingLookups := b.outstandingLookups + 1 }, op1)

/-- Result of `Batcher::Add`: the batcher afterwards, any callback
invocations it caused, and the returned status. -/
structure AddResult where
  batcher : Batcher
  emitted : List Status
  status : Status
deriving DecidableEq, Repr

/-- `Batcher::Add`: fail outside the gathering state; compute the partition
key (fallible); possibly refresh the table partition list (fallible;
`InvalidateTableCache` is a meta-cache effect, external to the batcher);
stamp the hash code for hash-partitioned tables; register the in-flight op;
then either complete the lookup synchronously from the caller-provided
tablet, or initiate an asynchronous lookup. -/
def Batcher.Add (b : Batcher) (ybOp : YBOperation) : AddResult :=
  if b.state ≠ BatcherState.kGatheringOps then ⟨b, [], addWrongStateError b.state⟩
  else
    match ybOp.getPartitionKey with
    | .error e => ⟨b, [], e⟩
    | .ok partitionKey =>
      match ybOp.maybeRefreshResult with
      | .error e => ⟨b, [], e⟩
      | .ok _ =>
        let ybOp1 := stampHashCode ybOp partitionKey
        let inFlightOp : InFlightOp :=
          { opId := 0, ybOp := ybOp1, partitionKey := partitionKey,
            sequenceNumber := 0, tablet := none,
            state := InFlightOpState.kLookingUpTablet }
        let r := b.AddInFlightOp inFlightOp
        match ybOp1.tabletHint with
        | some tablet =>
          let r2 := r.1.TabletLookupFinished r.2 (.ok tablet)
          ⟨r2.1, r2.2, Status.OK⟩
        | none =>
          ⟨{ r.1 with pendingLookups := r.1.pendingLookups ++ [r.2.opId] }, [], Status.OK⟩

/-- `Batcher::FlushAsync`: requires the gathering state (`CHECK_EQ` — the
event is inapplicable otherwise), stores the callback, moves to
`kResolvingTablets` (`session->FlushStarted` and
`transaction->ExpectOperations` are external), then runs the finish check
(covering the empty batch) and the readiness check. -/
def Batcher.FlushAsync (b : Batcher) : Batcher × List Status :=
  if b.state ≠ BatcherState.kGatheringOps then (b, [])
  else
    let b1 := { b with
      state := BatcherState.kResolvingTablets,
      flushCallback := true,
      flushRequested := true }
    let r1 := b1.CheckForFinishedFlush
    let r2 := r1.1.FlushBuffersIfReady
    (r2.1, r1.2 ++ r2.2)

/-- `Batcher::ProcessRpcStatus`: a response in any state other than
`kTransactionReady` is a logged fault and is ignored; a failed RPC marks
every op it carried as failed with the shared transport status. -/
def Batcher.ProcessRpcStatus (b : Batcher) (rpc : Rpc) (s : Status) : Batcher :=
  if b.state ≠ BatcherState.kTransactionReady then b
  else if s.code ≠ ErrorCode.Ok then
    rpc.ops.foldl (fun acc op => acc.CombineErrorUnlocked op s) b
  else b

/-- `Batcher::ProcessWriteResponse`: process the RPC status, then record a
per-op failure for every per-row error whose row index is in range
(out-of-range indices are logged and skipped; the propagated hybrid time
updates the client clock, which is external to the batcher). -/
def Batcher.ProcessWriteResponse (b : Batcher) (rpc : Rpc) (s : Status)
    (perRowErrors : List (Nat × Status)) : Batcher :=
  let b1 := b.ProcessRpcStatus rpc s
  perRowErrors.foldl
    (fun acc rowErr =>
      if h : rowErr.1 < rpc.ops.length then
        acc.CombineErrorUnlocked (rpc.ops.get ⟨rowErr.1, h⟩) rowErr.2
      else acc)
    b1

/-- `Batcher::RemoveInFlightOpsAfterFlushing` with no transaction and the
read-point clock update external: remove the RPC's ops from `ops_`. -/
def Batcher.RemoveInFlightOpsAfterFlushing (b : Batcher) (ops : List InFlightOp) : Batcher :=
  { b with ops := b.ops.filter (fun o => ¬ ops.any (fun r => r.opId = o.opId)) }

/-- The events of a batcher lifecycle: user ingress, flush, asynchronous
lookup completions from the meta-cache, RPC completions from the transport,
and aborts.  Each event executes atomically (the mutex serialises the
handlers). -/
inductive BatcherEvent
  | add (ybOp : YBOperation)
  | flushAsync
  | lookupDone (opId : Nat) (result : Except Status RemoteTablet)
  | rpcDone (rpcIndex : Nat) (status : Status) (perRowErrors : List (Nat × Status))
  | abort (status : Status)
deriving DecidableEq, Repr

/-- One lifecycle event applied to the batcher.  `lookupDone` is only
meaningful for an op with a lookup actually in flight (the meta-cache invokes
each completion exactly once) and `rpcDone` for an RPC that was sent and has
not yet completed; other instances are ignored.  The `rpcDone` glue —
response processing, then `RemoveInFlightOpsAfterFlushing`, then the finish
check — follows spec section 4.6 because the RPC classes live outside
batcher.cc. -/
def stepEvent (e : BatcherEvent) (b : Batcher) : Batcher × List Status :=
  match e with
  | .add ybOp =>
    let r := b.Add ybOp
    (r.batcher, r.emitted)
  | .flushAsync => b.FlushAsync
  | .lookupDone opId result =>
    if opId ∈ b.pendingLookups then
      match b.ops.find? (fun o => o.opId = opId) with
      | some op =>
        let b1 := { b with pendingLookups := b.pendingLookups.filter (fun x => x ≠ opId) }
        b1.TabletLookupFinished op result
      | none => (b, [])
    else (b, [])
  | .rpcDone rpcIndex status perRowErrors =>
    if h : rpcIndex < b.sentRpcs.length then
      if rpcIndex ∈ b.completedRpcs then (b, [])
      else
        let rpc := b.sentRpcs.get ⟨rpcIndex, h⟩
        let b1 := { b with completedRpcs := b.completedRpcs ++ [rpcIndex] }
        let b2 :=
          if rpc.kind = OpGroup.kWrite then b1.ProcessWriteResponse rpc status perRowErrors
          else b1.ProcessRpcStatus rpc status
        let b3 := b2.RemoveInFlightOpsAfterFlushing rpc.ops
        b3.CheckForFinishedFlush
    else (b, [])
  | .abort status => b.Abort status

/-- A batcher lifecycle: fold the events over the state, concatenating the
callback invocations. -/
def runEvents (b : Batcher) : List BatcherEvent → Batcher × List Status
  | [] => (b, [])
  | e :: es =>
    let r := stepEvent e b
    let r2 := runEvents r.1 es
    (r2.1, r.2 ++ r2.2)

/-- `Batcher::RejectionScore`: 0.0 when no rejection score source was
injected, otherwise the source's value for the attempt number
(`rejection_score_source_` is the injected source; scores are modelled as
rationals since their arithmetic is never used). -/
def RejectionScore (rejectionScoreSource : Option (Int → Rat)) (attemptNum : Int) : Rat :=
  match rejectionScoreSource with
  | none => 0
  | some source => source attemptNum

/-! Concrete fixtures used to evaluate the model at specific inputs. -/

/-- A plain QL write on a range-partitioned table, partition key `[1]`. -/
def testWriteOp : YBOperation :=
  { opType := YBOperationType.QL_WRITE, group := OpGroup.kWrite, isHashPartitioning := false,
    getPartitionKey := .ok [1], maybeRefreshResult := .ok false,
    tabletHint := none, partitionListVersion := none, hashCode := none }

/-- A second write, partition key `[2]`. -/
def testWriteOp2 : YBOperation := { testWriteOp with getPartitionKey := .ok [2] }

/-- A third write, partition key `[3]`. -/
def testWriteOp3 : YBOperation := { testWriteOp with getPartitionKey := .ok [3] }

/-- A Redis read on a hash-partitioned table whose partition key is empty. -/
def testRedisReadOpEmptyKey : YBOperation :=
  { opType := YBOperationType.REDIS_READ, group := OpGroup.kLeaderRead,
    isHashPartitioning := true, getPartitionKey := .ok [],
    maybeRefreshResult := .ok false, tabletHint := none,
    partitionListVersion := none, hashCode := none }

/-- A QL write on a hash-partitioned table, partition key `[7]`. -/
def testQlWriteHashOp : YBOperation :=
  { opType := YBOperationType.QL_WRITE, group := OpGroup.kWrite, isHashPartitioning := true,
    getPartitionKey := .ok [7], maybeRefreshResult := .ok false,
    tabletHint := none, partitionListVersion := none, hashCode := none }

/-- An op whose partition-key computation fails. -/
def testFailingKeyOp : YBOperation :=
  { testWriteOp with getPartitionKey := .error ⟨ErrorCode.NotFound, "Not found", none⟩ }

/-- A write recording partition-list version 3. -/
def testStaleVersionOp : YBOperation := { testWriteOp2 with partitionListVersion := some 3 }

/-- A tablet covering the whole key space (identity 1). -/
def testTabletA : RemoteTablet := ⟨1, 0, [], []⟩

/-- A tablet whose current partition-list version is 4. -/
def testTabletV4 : RemoteTablet := ⟨1, 4, [], []⟩

/-- A buffered in-flight op resolved to `testTabletA`. -/
def testInFlightOp : InFlightOp :=
  { opId := 0, ybOp := testWriteOp, partitionKey := [1], sequenceNumber := 0,
    tablet := some testTabletA, state := InFlightOpState.kBufferedToTabletServer }

/-- A buffered in-flight op whose recorded partition-list version (3) differs
from its tablet's current version (4). -/
def testMismatchInFlightOp : InFlightOp :=
  { opId := 1, ybOp := testStaleVersionOp, partitionKey := [2], sequenceNumber := 1,
    tablet := some testTabletV4, state := InFlightOpState.kBufferedToTabletServer }

/-- A tablet covering the whole key space (identity 2). -/
def testTabletB : RemoteTablet := ⟨2, 0, [], []⟩

/-- A lookup failure used in scenarios. -/
def testNotFoundStatus : Status := ⟨ErrorCode.NotFound, "Not found", none⟩

/-- An abort status used in scenarios. -/
def testAbortStatus : Status := ⟨ErrorCode.Aborted, "X", none⟩

/-- One when a callable is stored in `flush_callback_`, else zero — the
number of pending callback invocations the batcher still owes. -/
def cbTok (b : Batcher) : Nat := if b.flushCallback then 1 else 0

/-- One when `FlushAsync` has been called on this batcher, else zero. -/
def frTok (b : Batcher) : Nat := if b.flushRequested then 1 else 0

/-- The callback invariant maintained by every batcher operation: a stored
callback implies a flush was requested; in the gathering state no callback is
stored and no flush was requested; between `FlushAsync` and completion
(resolving / preparing / ready) the callback is stored; in the terminal
states the callback has been consumed; and a completed batcher was
flushed. -/
def CallbackInv (b : Batcher) : Prop :=
  (b.flushCallback = true → b.flushRequested = true) ∧
  (b.state = BatcherState.kGatheringOps →
    b.flushCallback = false ∧ b.flushRequested = false) ∧
  ((b.state = BatcherState.kResolvingTablets ∨ b.state = BatcherState.kTransactionPrepare ∨
    b.state = BatcherState.kTransactionReady) → b.flushCallback = true) ∧
  ((b.state = BatcherState.kComplete ∨ b.state = BatcherState.kAborted) →
    b.flushCallback = false) ∧
  (b.state = BatcherState.kComplete → b.flushRequested = true)

/-- Buffered op 0, resolved to tablet A, sequence number 0. -/
def testOpA0 : InFlightOp :=
  { opId := 0, ybOp := testWriteOp, partitionKey := [1], sequenceNumber := 0,
    tablet := some testTabletA, state := InFlightOpState.kBufferedToTabletServer }

/-- Buffered op 1, resolved to tablet B, sequence number 1. -/
def testOpB1 : InFlightOp :=
  { opId := 1, ybOp := testWriteOp2, partitionKey := [2], sequenceNumber := 1,
    tablet := some testTabletB, state := InFlightOpState.kBufferedToTabletServer }

/-- Buffered op 2, resolved to tablet A, sequence number 2. -/
def testOpA2 : InFlightOp :=
  { opId := 2, ybOp := testWriteOp3, partitionKey := [3], sequenceNumber := 2,
    tablet := some testTabletA, state := InFlightOpState.kBufferedToTabletServer }

/-- A resolving batcher whose queue holds three buffered ops across two
tablets, in lookup-completion order 2, 1, 0. -/
def testQueueBatcher : Batcher :=
  { initialBatcher false false with
      state := BatcherState.kResolvingTablets
      flushCallback := true
      ops := [testOpA0, testOpB1, testOpA2]
      opsQueue := [testOpA2, testOpB1, testOpA0] }

/-- The groups the sort-and-partition step produces for
`testQueueBatcher`. -/
def testGroups : List (List InFlightOp) := [[testOpA0, testOpA2], [testOpB1]]

/-!  Helper lemmas: canonical forms of the error-recording helpers, used to
reason about the batcher methods without re-expanding their branches. -/

theorem CombineErrorUnlocked_eq (b : Batcher) (op : InFlightOp) (s : Status) :
    ∃ ce, b.CombineErrorUnlocked op s =
      { b with errorCollector := b.errorCollector ++ [(op.opId, s)],
               combinedError := ce, hadErrors := true } := by
  unfold Batcher.CombineErrorUnlocked
  by_cases h1 : b.combineBatcherErrors
  · by_cases h2 : b.combinedError.isOk
    · exact ⟨s.CloneAndPrepend op.describe, by simp [h1, h2]⟩
    · by_cases h3 : b.combinedError.code ≠ ErrorCode.Combined ∧ b.combinedError.code ≠ s.code
      · exact ⟨multipleFailuresStatus, by simp [h1, h2, h3]⟩
      · exact ⟨b.combinedError, by simp [h1, h2, h3]⟩
  · exact ⟨b.combinedError, by simp [h1]⟩

theorem MarkInFlightOpFailedUnlocked_eq (b : Batcher) (op : InFlightOp) (s : Status) :
    ∃ ce sm, b.MarkInFlightOpFailedUnlocked op s =
      { b with
          ops := b.ops.filter (fun o => o.opId ≠ op.opId)
          errorCollector := b.errorCollector ++ [(op.opId, s)]
          combinedError := ce
          staleMarked := sm
          hadErrors := true } := by
  unfold Batcher.MarkInFlightOpFailedUnlocked
  by_cases h1 : s.clientError = some ClientErrorCode.kTablePartitionListIsStale
  · obtain ⟨ce, hce⟩ := CombineErrorUnlocked_eq
      { b with
          ops := b.ops.filter (fun o => o.opId ≠ op.opId)
          staleMarked := b.staleMarked ++ [op.opId] } op s
    exact ⟨ce, b.staleMarked ++ [op.opId], by simp only [h1, if_pos]; rw [hce]⟩
  · obtain ⟨ce, hce⟩ := CombineErrorUnlocked_eq
      { b with ops := b.ops.filter (fun o => o.opId ≠ op.opId) } op s
    exact ⟨ce, b.staleMarked, by simp only [h1, if_neg, ite_false]; rw [hce]⟩

theorem foldl_Mark_eq (l : List InFlightOp) (b : Batcher) (s : Status) :
    ∃ ops ec ce sm he,
      l.foldl (fun acc op => acc.MarkInFlightOpFailedUnlocked op s) b =
        { b with
            ops := ops
            errorCollector := ec
            combinedError := ce
            staleMarked := sm
            hadErrors := he } := by
  induction l generalizing b with
  | nil => exact ⟨b.ops, b.errorCollector, b.combinedError, b.staleMarked, b.hadErrors, rfl⟩
  | cons op l ih =>
    obtain ⟨ce1, sm1, h1⟩ := MarkInFlightOpFailedUnlocked_eq b op s
    obtain ⟨ops2, ec2, ce2, sm2, he2, h2⟩ := ih (b.MarkInFlightOpFailedUnlocked op s)
    refine ⟨ops2, ec2, ce2, sm2, he2, ?_⟩
    simp only [List.foldl_cons]
    rw [h2, h1]

theorem foldl_Combine_eq (l : List InFlightOp) (b : Batcher) (s : Status) :
    ∃ ec ce he,
      l.foldl (fun acc op => acc.CombineErrorUnlocked op s) b =
        { b with errorCollector := ec, combinedError := ce, hadErrors := he } := by
  induction l generalizing b with
  | nil => exact ⟨b.errorCollector, b.combinedError, b.hadErrors, rfl⟩
  | cons op l ih =>
    obtain ⟨ce1, h1⟩ := CombineErrorUnlocked_eq b op s
    obtain ⟨ec2, ce2, he2, h2⟩ := ih (b.CombineErrorUnlocked op s)
    refine ⟨ec2, ce2, he2, ?_⟩
    simp only [List.foldl_cons]
    rw [h2, h1]

theorem Abort_spec (b : Batcher) (s : Status) :
    ∃ ops ec ce sm he,
      b.Abort s = ({ b with
                       state := BatcherState.kAborted
                       flushCallback := false
                       ops := ops
                       errorCollector := ec
                       combinedError := ce
                       staleMarked := sm
                       hadErrors := he },
                   if b.flushCallback then [s] else []) := by
  obtain ⟨ops, ec, ce, sm, he, h⟩ :=
    foldl_Mark_eq
      (b.ops.filter (fun o => o.state = InFlightOpState.kBufferedToTabletServer))
      { b with state := BatcherState.kAborted } s
  refine ⟨ops, ec, ce, sm, he, ?_⟩
  simp only [Batcher.Abort, h]
  cases hcb : b.flushCallback
  · rfl
  · rfl

theorem CheckForFinishedFlush_cases (b : Batcher) :
    b.CheckForFinishedFlush = (b, []) ∨
    (b.ops.isEmpty = true ∧
     (b.state = BatcherState.kResolvingTablets ∨ b.state = BatcherState.kTransactionReady) ∧
     b.CheckForFinishedFlush =
       ({ b with state := BatcherState.kComplete, flushCallback := false },
        [b.summaryStatus])) := by
  unfold Batcher.CheckForFinishedFlush
  by_cases h1 : b.ops.isEmpty
  · by_cases h2 : b.state = BatcherState.kComplete ∨ b.state = BatcherState.kGatheringOps ∨
        b.state = BatcherState.kAborted
    · left; simp [h1, h2]
    · by_cases h3 : b.state = BatcherState.kResolvingTablets ∨
          b.state = BatcherState.kTransactionReady
      · right
        exact ⟨h1, h3, by simp [h1, h2, h3, Batcher.RunCallback, Batcher.summaryStatus]⟩
      · left; simp [h1, h2, h3]
  · left; simp [h1]

theorem ExecuteOperations_spec (b : Batcher) :
    ∃ oq sr, b.ExecuteOperations =
      ({ b with
           state := if b.state = BatcherState.kTransactionPrepare
                    then BatcherState.kTransactionReady else b.state
           opsQueue := oq
           sentRpcs := sr }, []) := by
  unfold Batcher.ExecuteOperations
  by_cases h1 : b.state = BatcherState.kTransactionPrepare
  · by_cases h2 : b.opsQueue.isEmpty
    · exact ⟨b.opsQueue, b.sentRpcs, by simp [h1, h2]⟩
    · exact ⟨[], b.sentRpcs ++ b.groups.map
        (fun g => CreateRpc g (b.forceConsistentRead || decide (b.groups.length > 1))),
        by simp [h1, h2]⟩
  · exact ⟨b.opsQueue, b.sentRpcs, by simp [h1]⟩

theorem stampHashCode_tabletHint (ybOp : YBOperation) (pk : List Nat) :
    (stampHashCode ybOp pk).tabletHint = ybOp.tabletHint := by
  unfold stampHashCode
  split
  · rfl
  · cases h : ybOp.opType <;> simp <;> split <;> rfl

theorem Add_of_not_gathering (b : Batcher) (ybOp : YBOperation)
    (h : b.state ≠ BatcherState.kGatheringOps) :
    b.Add ybOp = ⟨b, [], addWrongStateError b.state⟩ := by
  unfold Batcher.Add
  simp [h]

theorem foldl_perRow_eq (l : List (Nat × Status)) (rpc : Rpc) (b : Batcher) :
    ∃ ec ce he,
      l.foldl
        (fun acc rowErr =>
          if h : rowErr.1 < rpc.ops.length then
            acc.CombineErrorUnlocked (rpc.ops.get ⟨rowErr.1, h⟩) rowErr.2
          else acc) b =
        { b with errorCollector := ec, combinedError := ce, hadErrors := he } := by
  induction l generalizing b with
  | nil => exact ⟨b.errorCollector, b.combinedError, b.hadErrors, rfl⟩
  | cons rowErr l ih =>
    by_cases h : rowErr.1 < rpc.ops.length
    · obtain ⟨ce1, h1⟩ := CombineErrorUnlocked_eq b (rpc.ops.get ⟨rowErr.1, h⟩) rowErr.2
      obtain ⟨ec2, ce2, he2, h2⟩ :=
        ih (b.CombineErrorUnlocked (rpc.ops.get ⟨rowErr.1, h⟩) rowErr.2)
      refine ⟨ec2, ce2, he2, ?_⟩
      simp only [List.foldl_cons, dif_pos h]
      rw [h2, h1]
    · obtain ⟨ec2, ce2, he2, h2⟩ := ih b
      refine ⟨ec2, ce2, he2, ?_⟩
      simp only [List.foldl_cons, dif_neg h]
      rw [h2]

theorem ProcessRpcStatus_eq (b : Batcher) (rpc : Rpc) (s : Status) :
    ∃ ec ce he, b.ProcessRpcStatus rpc s =
      { b with errorCollector := ec, combinedError := ce, hadErrors := he } := by
  unfold Batcher.ProcessRpcStatus
  by_cases h1 : b.state = BatcherState.kTransactionReady
  · by_cases h2 : s.code = ErrorCode.Ok
    · refine ⟨b.errorCollector, b.combinedError, b.hadErrors, ?_⟩
      rw [if_neg (by simp [h1]), if_neg (by simp [h2])]
    · obtain ⟨ec, ce, he, h⟩ := foldl_Combine_eq rpc.ops b s
      refine ⟨ec, ce, he, ?_⟩
      rw [if_neg (by simp [h1]), if_pos (by simp [h2]), h]
  · refine ⟨b.errorCollector, b.combinedError, b.hadErrors, ?_⟩
    rw [if_pos h1]

theorem ProcessWriteResponse_eq (b : Batcher) (rpc : Rpc) (s : Status)
    (perRowErrors : List (Nat × Status)) :
    ∃ ec ce he, b.ProcessWriteResponse rpc s perRowErrors =
      { b with errorCollector := ec, combinedError := ce, hadErrors := he } := by
  unfold Batcher.ProcessWriteResponse
  obtain ⟨ec1, ce1, he1, h1⟩ := ProcessRpcStatus_eq b rpc s
  obtain ⟨ec2, ce2, he2, h2⟩ := foldl_perRow_eq perRowErrors rpc (b.ProcessRpcStatus rpc s)
  refine ⟨ec2, ce2, he2, ?_⟩
  rw [h2, h1]

theorem TabletLookupFinished_state_terminal (b : Batcher) (op : InFlightOp)
    (res : Except Status RemoteTablet) :
    (b.state = BatcherState.kAborted →
      (b.TabletLookupFinished op res).1.state = BatcherState.kAborted) ∧
    (b.state = BatcherState.kComplete →
      (b.TabletLookupFinished op res).1.state = BatcherState.kComplete) := by
  constructor
  · intro h
    obtain ⟨ce, sm, hm⟩ :=
      MarkInFlightOpFailedUnlocked_eq
        { b with
            state := BatcherState.kAborted
            outstandingLookups := b.outstandingLookups - 1 } op batchAbortedStatus
    simp only [Batcher.TabletLookupFinished, h, eq_self_iff_true, if_true, ite_true, hm]
  · intro h
    simp only [Batcher.TabletLookupFinished, h]
    rfl

theorem CheckForFinishedFlush_state_of_terminal (b : Batcher)
    (h : b.state = BatcherState.kAborted ∨ b.state = BatcherState.kComplete) :
    (b.CheckForFinishedFlush).1.state = b.state := by
  rcases CheckForFinishedFlush_cases b with hc | ⟨_, hst, hc⟩
  · rw [hc]
  · exfalso
    rcases h with h | h <;> rcases hst with hst | hst <;> rw [h] at hst <;> simp at hst

theorem stepEvent_state_of_terminal (b : Batcher) (e : BatcherEvent)
    (h : b.state = BatcherState.kAborted ∨ b.state = BatcherState.kComplete) :
    (stepEvent e b).1.state = b.state ∨
    (∃ s, e = BatcherEvent.abort s ∧ (stepEvent e b).1.state = BatcherState.kAborted) := by
  have hne : b.state ≠ BatcherState.kGatheringOps := by
    rcases h with h | h <;> rw [h] <;> intro hc <;> cases hc
  cases e with
  | add ybOp =>
    left
    simp [stepEvent, Add_of_not_gathering b ybOp hne]
  | flushAsync =>
    left
    simp [stepEvent, Batcher.FlushAsync, hne]
  | lookupDone opId res =>
    left
    simp only [stepEvent]
    split
    · split
      · rename_i op _
        rcases h with h | h
        · rw [h]
          exact (TabletLookupFinished_state_terminal _ op res).1 rfl
        · rw [h]
          exact (TabletLookupFinished_state_terminal _ op res).2 rfl
      · rfl
    · rfl
  | rpcDone rpcIndex status perRowErrors =>
    left
    simp only [stepEvent]
    split
    · split
      · rfl
      · rename_i hlt _
        set rpc := b.sentRpcs.get ⟨rpcIndex, hlt⟩ with hrpc
        set b1 : Batcher := { b with completedRpcs := b.completedRpcs ++ [rpcIndex] } with hb1
        set b2 : Batcher :=
          if rpc.kind = OpGroup.kWrite then b1.ProcessWriteResponse rpc status perRowErrors
          else b1.ProcessRpcStatus rpc status with hb2
        have hb2state : b2.state = b.state := by
          rw [hb2]
          split
          · obtain ⟨ec, ce, he, hw⟩ := ProcessWriteResponse_eq b1 rpc status perRowErrors
            rw [hw]
          · obtain ⟨ec, ce, he, hw⟩ := ProcessRpcStatus_eq b1 rpc status
            rw [hw]
        have hb3state : (b2.RemoveInFlightOpsAfterFlushing rpc.ops).state = b.state := by
          rw [Batcher.RemoveInFlightOpsAfterFlushing]
          exact hb2state
        rw [CheckForFinishedFlush_state_of_terminal _ (by rw [hb3state]; exact h.symm.symm)]
        exact hb3state
    · rfl
  | abort s =>
    right
    refine ⟨s, rfl, ?_⟩
    obtain ⟨ops, ec, ce, sm, he, ha⟩ := Abort_spec b s
    simp [stepEvent, ha]

/-- C4: calling `Add` while the batcher is not in the gathering state returns
the wrong-state error (the status the specification names *WrongState*:
batcher.cc builds it as an InternalError with the wrong-state message, and
no status code called WrongState exists in the code base) and leaves the
batcher unchanged — nothing is added. -/
theorem c4_add_wrong_state (b : Batcher) (ybOp : YBOperation)
    (h : b.state ≠ BatcherState.kGatheringOps) :
    (b.Add ybOp).status = addWrongStateError b.state ∧
    (b.Add ybOp).batcher = b ∧
    (b.Add ybOp).emitted = [] := by
  unfold Batcher.Add
  simp [h]

/-- Witness for C4 at a concrete input: `Add` on an aborted batcher. -/
theorem c4_witness :
    (({ initialBatcher false false with state := BatcherState.kAborted } : Batcher).Add
        testWriteOp).status = addWrongStateError BatcherState.kAborted ∧
    (({ initialBatcher false false with state := BatcherState.kAborted } : Batcher).Add
        testWriteOp).batcher =
      { initialBatcher false false with state := BatcherState.kAborted } ∧
    (({ initialBatcher false false with state := BatcherState.kAborted } : Batcher).Add
        testWriteOp).emitted = [] :=
  c4_add_wrong_state { initialBatcher false false with state := BatcherState.kAborted }
    testWriteOp (by decide)

/-- C9: whenever `Add` returns a non-OK status (wrong state, partition-key
computation failure, or partition-list refresh failure), the batcher is
observably unchanged: in particular no in-flight op is inserted, no sequence
number is consumed, `outstanding_lookups` is untouched, and no lookup is
initiated. -/
theorem c9_add_failure_no_mutation (b : Batcher) (ybOp : YBOperation)
    (h : (b.Add ybOp).status.code ≠ ErrorCode.Ok) :
    (b.Add ybOp).batcher = b ∧
    (b.Add ybOp).emitted = [] ∧
    (b.Add ybOp).batcher.ops = b.ops ∧
    (b.Add ybOp).batcher.nextOpSequenceNumber = b.nextOpSequenceNumber ∧
    (b.Add ybOp).batcher.outstandingLookups = b.outstandingLookups ∧
    (b.Add ybOp).batcher.pendingLookups = b.pendingLookups := by
  by_cases hs : b.state = BatcherState.kGatheringOps
  · cases hk : ybOp.getPartitionKey with
    | error e => unfold Batcher.Add; simp [hs, hk]
    | ok pk =>
      cases hr : ybOp.maybeRefreshResult with
      | error e => unfold Batcher.Add; simp [hs, hk, hr]
      | ok refreshed =>
        exfalso
        unfold Batcher.Add at h
        simp only [hs] at h
        cases hh : (stampHashCode ybOp pk).tabletHint <;>
          simp [hk, hr, hh, Status.OK] at h
  · unfold Batcher.Add
    simp [hs]

/-- Witness for C9 at a concrete input: an op whose partition-key computation
fails leaves the fresh batcher untouched. -/
theorem c9_witness :
    ((initialBatcher false false).Add testFailingKeyOp).batcher = initialBatcher false false ∧
    ((initialBatcher false false).Add testFailingKeyOp).emitted = [] ∧
    ((initialBatcher false false).Add testFailingKeyOp).batcher.ops =
      (initialBatcher false false).ops ∧
    ((initialBatcher false false).Add testFailingKeyOp).batcher.nextOpSequenceNumber =
      (initialBatcher false false).nextOpSequenceNumber ∧
    ((initialBatcher false false).Add testFailingKeyOp).batcher.outstandingLookups =
      (initialBatcher false false).outstandingLookups ∧
    ((initialBatcher false false).Add testFailingKeyOp).batcher.pendingLookups =
      (initialBatcher false false).pendingLookups :=
  c9_add_failure_no_mutation (initialBatcher false false) testFailingKeyOp (by decide)

/-- C10: `RejectionScore` returns 0 for every attempt number when no
rejection-score source has been injected, and the injected source's value
for the attempt number otherwise. -/
theorem c10_rejection_score (src : Option (Int → Rat)) (attemptNum : Int) :
    (src = none → RejectionScore src attemptNum = 0) ∧
    (∀ f, src = some f → RejectionScore src attemptNum = f attemptNum) := by
  constructor
  · intro h; simp [RejectionScore, h]
  · intro f h; simp [RejectionScore, h]

/-- Witness for C10 at concrete inputs: no source gives 0; an injected
constant source gives its value. -/
theorem c10_witness :
    RejectionScore none 3 = 0 ∧
    RejectionScore (some (fun _ => (5 : Rat))) 3 = 5 :=
  ⟨(c10_rejection_score none 3).1 rfl,
   (c10_rejection_score (some (fun _ => (5 : Rat))) 3).2 (fun _ => (5 : Rat)) rfl⟩

/-- C6: the status delivered by the finish check is always the summary
status — the combined test-mode error when it is set, else the generic
IOError (message "Errors occurred while reaching out to the tablet
servers") when any op failed, else OK — and an empty flush (no `Add` calls)
completes with OK. -/
theorem c6_final_status :
    (∀ (b : Batcher) (s : Status),
      (b.CheckForFinishedFlush).2 = [s] →
      s = b.summaryStatus ∧
      b.summaryStatus = (if ¬ b.combinedError.isOk then b.combinedError
                         else if b.hadErrors then ioSummaryError else Status.OK)) ∧
    (∀ combineErrors forceRead : Bool,
      (runEvents (initialBatcher combineErrors forceRead) [BatcherEvent.flushAsync]).2 =
        [Status.OK]) := by
  constructor
  · intro b s h
    rcases CheckForFinishedFlush_cases b with hc | ⟨_, _, hc⟩
    · rw [hc] at h
      simp at h
    · rw [hc] at h
      simp at h
      exact ⟨h.symm, rfl⟩
  · intro combineErrors forceRead
    cases combineErrors <;> cases forceRead <;> decide

/-- Witness for C6 at a concrete input: a resolving batcher with no ops and
no errors completes with status OK, the summary status. -/
theorem c6_witness :
    Status.OK =
      ({ initialBatcher false false with
           state := BatcherState.kResolvingTablets
           flushCallback := true } : Batcher).summaryStatus :=
  (c6_final_status.1
    { initialBatcher false false with
        state := BatcherState.kResolvingTablets
        flushCallback := true }
    Status.OK (by decide)).1

/-- C7 counterexample: the claim states that for every read kind the hash
code is stamped only when the partition key is non-empty, but the
`REDIS_READ` case of the switch in `Batcher::Add` (line 316) has no
emptiness guard: a Redis read with an empty partition key on a
hash-partitioned table is stamped anyway. -/
theorem c7_counterexample :
    ((initialBatcher false false).Add testRedisReadOpEmptyKey).status = Status.OK ∧
    testRedisReadOpEmptyKey.hashCode = none ∧
    testRedisReadOpEmptyKey.getPartitionKey = Except.ok [] ∧
    ((initialBatcher false false).Add testRedisReadOpEmptyKey).batcher.ops.map
        (fun o => o.ybOp.hashCode) = [some (DecodeMultiColumnHashValue [])] := by
  decide

/-- C7 (amended): during `Add` on a hash-partitioned table the decoded
multi-column hash value is stamped onto the operation unconditionally for
every write kind **and for Redis reads**, and only when the partition key is
non-empty for QL and PGSQL reads. -/
theorem c7_amended (b : Batcher) (ybOp : YBOperation) (pk : List Nat) (refreshed : Bool)
    (hs : b.state = BatcherState.kGatheringOps)
    (hk : ybOp.getPartitionKey = Except.ok pk)
    (hr : ybOp.maybeRefreshResult = Except.ok refreshed)
    (hh : ybOp.isHashPartitioning = true)
    (ht : ybOp.tabletHint = none) :
    ∃ newOp, (b.Add ybOp).batcher.ops = b.ops ++ [newOp] ∧
      newOp.ybOp.hashCode =
        (match ybOp.opType with
         | YBOperationType.QL_WRITE => some (DecodeMultiColumnHashValue pk)
         | YBOperationType.PGSQL_WRITE => some (DecodeMultiColumnHashValue pk)
         | YBOperationType.REDIS_WRITE => some (DecodeMultiColumnHashValue pk)
         | YBOperationType.REDIS_READ => some (DecodeMultiColumnHashValue pk)
         | YBOperationType.QL_READ =>
             if pk.isEmpty then ybOp.hashCode else some (DecodeMultiColumnHashValue pk)
         | YBOperationType.PGSQL_READ =>
             if pk.isEmpty then ybOp.hashCode else some (DecodeMultiColumnHashValue pk)) := by
  have hint : (stampHashCode ybOp pk).tabletHint = none := by
    rw [stampHashCode_tabletHint]; exact ht
  refine ⟨{ opId := b.nextOpSequenceNumber
            ybOp := stampHashCode ybOp pk
            partitionKey := pk
            sequenceNumber := b.nextOpSequenceNumber
            tablet := none
            state := InFlightOpState.kLookingUpTablet }, ?_, ?_⟩
  · unfold Batcher.Add
    simp [hs, hk, hr, hint, Batcher.AddInFlightOp]
  · show (stampHashCode ybOp pk).hashCode = _
    unfold stampHashCode
    rw [hh]
    cases ybOp.opType <;> simp <;> split <;> simp_all [List.isEmpty_iff]

/-- Witness for C7 (amended) at a concrete input: a hash-partitioned QL
write with partition key `[7]` is stamped with the decoded hash value. -/
theorem c7_witness :
    ∃ newOp,
      ((initialBatcher false false).Add testQlWriteHashOp).batcher.ops =
        (initialBatcher false false).ops ++ [newOp] ∧
      newOp.ybOp.hashCode = some (DecodeMultiColumnHashValue [7]) := by
  have h := c7_amended (initialBatcher false false) testQlWriteHashOp [7] false
    rfl rfl rfl rfl rfl
  exact h

theorem insertSorted_perm (a : InFlightOp) (l : List InFlightOp) :
    List.Perm (insertSorted a l) (a :: l) := by
  induction l with
  | nil => exact List.Perm.refl _
  | cons b l ih =>
    unfold insertSorted
    split
    · exact List.Perm.refl _
    · exact (ih.cons b).trans (List.Perm.swap a b l)

theorem sortOps_perm (l : List InFlightOp) : List.Perm (sortOps l) l := by
  induction l with
  | nil => exact List.Perm.refl _
  | cons a l ih => exact (insertSorted_perm a (sortOps l)).trans (ih.cons a)

theorem groupsLoop_error (cur : List InFlightOp) (t : Nat) (g : OpGroup)
    (l : List InFlightOp) (e : Status) (h : groupsLoop cur t g l = .error e) :
    e = partitionListVersionMismatchStatus := by
  induction l generalizing cur t g with
  | nil => simp [groupsLoop] at h
  | cons op rest ih =>
    rw [groupsLoop] at h
    by_cases h1 : versionMismatch op
    · rw [if_pos h1] at h
      cases h
      rfl
    · rw [if_neg h1] at h
      by_cases h2 : t ≠ op.tabletId ∨ g ≠ op.ybOp.group
      · rw [if_pos h2] at h
        cases hrec : groupsLoop [op] op.tabletId op.ybOp.group rest with
        | error e2 =>
          rw [hrec] at h
          cases h
          exact ih _ _ _ hrec
        | ok gs => rw [hrec] at h; cases h
      · rw [if_neg h2] at h
        exact ih _ _ _ h

theorem makeGroups_error (l : List InFlightOp) (e : Status)
    (h : makeGroups l = .error e) : e = partitionListVersionMismatchStatus := by
  cases l with
  | nil => simp [makeGroups] at h
  | cons op rest =>
    rw [makeGroups] at h
    by_cases h1 : versionMismatch op
    · rw [if_pos h1] at h
      cases h
      rfl
    · rw [if_neg h1] at h
      exact groupsLoop_error _ _ _ _ _ h

theorem groupsLoop_ok_no_mismatch (cur : List InFlightOp) (t : Nat) (g : OpGroup)
    (l : List InFlightOp) (gs : List (List InFlightOp))
    (h : groupsLoop cur t g l = .ok gs) :
    ∀ op ∈ l, versionMismatch op = false := by
  induction l generalizing cur t g gs with
  | nil => intro op hop; cases hop
  | cons op2 rest ih =>
    intro op hop
    rw [groupsLoop] at h
    by_cases h1 : versionMismatch op2
    · rw [if_pos h1] at h; cases h
    · rw [if_neg h1] at h
      rcases List.mem_cons.mp hop with rfl | hop2
      · exact Bool.of_not_eq_true h1
      · by_cases h2 : t ≠ op2.tabletId ∨ g ≠ op2.ybOp.group
        · rw [if_pos h2] at h
          cases hrec : groupsLoop [op2] op2.tabletId op2.ybOp.group rest with
          | error e2 => rw [hrec] at h; cases h
          | ok gs2 => exact ih _ _ _ _ hrec op hop2
        · rw [if_neg h2] at h
          exact ih _ _ _ _ h op hop2

theorem makeGroups_ok_no_mismatch (l : List InFlightOp) (gs : List (List InFlightOp))
    (h : makeGroups l = .ok gs) : ∀ op ∈ l, versionMismatch op = false := by
  cases l with
  | nil => intro op hop; cases hop
  | cons op2 rest =>
    intro op hop
    rw [makeGroups] at h
    by_cases h1 : versionMismatch op2
    · rw [if_pos h1] at h; cases h
    · rw [if_neg h1] at h
      rcases List.mem_cons.mp hop with rfl | hop2
      · exact Bool.of_not_eq_true h1
      · exact groupsLoop_ok_no_mismatch _ _ _ _ _ h op hop2

theorem makeGroups_error_of_mismatch (l : List InFlightOp)
    (h : ∃ op ∈ l, versionMismatch op = true) :
    makeGroups l = .error partitionListVersionMismatchStatus := by
  cases hm : makeGroups l with
  | ok gs =>
    exfalso
    obtain ⟨op, hmem, hv⟩ := h
    have := makeGroups_ok_no_mismatch l gs hm op hmem
    rw [hv] at this
    cases this
  | error e => rw [makeGroups_error l e hm]

/-- C3 counterexample: the claim asserts that *every* batch in which at least
one lookup fails is aborted with a retriable Aborted carrying
*AbortedBatchDueToFailedTabletLookup*.  But when every lookup fails,
`ops_queue_` is empty at readiness, so `FlushBuffersIfReady` moves to
`kTransactionReady` without aborting and the batch completes through
`CheckForFinishedFlush` with the generic IOError summary: here a one-op batch
whose lookup fails with NotFound completes (state `kComplete`) with the
IOError status, which is not an Aborted status and carries no client error
code.  No RPC is sent, and the lookup failure is recorded in the error
collector. -/
theorem c3_counterexample :
    (runEvents (initialBatcher false false)
      [BatcherEvent.add testWriteOp, BatcherEvent.flushAsync,
       BatcherEvent.lookupDone 0 (Except.error testNotFoundStatus)]).2 = [ioSummaryError] ∧
    (runEvents (initialBatcher false false)
      [BatcherEvent.add testWriteOp, BatcherEvent.flushAsync,
       BatcherEvent.lookupDone 0 (Except.error testNotFoundStatus)]).1.state =
      BatcherState.kComplete ∧
    (runEvents (initialBatcher false false)
      [BatcherEvent.add testWriteOp, BatcherEvent.flushAsync,
       BatcherEvent.lookupDone 0 (Except.error testNotFoundStatus)]).1.sentRpcs = [] ∧
    (runEvents (initialBatcher false false)
      [BatcherEvent.add testWriteOp, BatcherEvent.flushAsync,
       BatcherEvent.lookupDone 0 (Except.error testNotFoundStatus)]).1.errorCollector =
      [(0, testNotFoundStatus)] ∧
    (∀ s ∈ (runEvents (initialBatcher false false)
      [BatcherEvent.add testWriteOp, BatcherEvent.flushAsync,
       BatcherEvent.lookupDone 0 (Except.error testNotFoundStatus)]).2,
      s.code ≠ ErrorCode.Aborted ∧
      s.clientError ≠ some ClientErrorCode.kAbortedBatchDueToFailedTabletLookup) := by
  decide

/-- C3 (amended): at readiness with `had_errors_` set, no RPC is sent; if at
least one lookup succeeded (`ops_queue_` non-empty) the batch is aborted
with the retriable Aborted status carrying
*AbortedBatchDueToFailedTabletLookup*; if every lookup failed
(`ops_queue_` empty) the batcher instead moves to `kTransactionReady` and
the batch completes with the generic summary status. -/
theorem c3_amended (b : Batcher)
    (h1 : b.outstandingLookups = 0)
    (h2 : b.state = BatcherState.kResolvingTablets)
    (h3 : b.hadErrors = true) :
    (b.FlushBuffersIfReady).1.sentRpcs = b.sentRpcs ∧
    (b.opsQueue.isEmpty = false →
      (b.FlushBuffersIfReady).1.state = BatcherState.kAborted ∧
      (b.FlushBuffersIfReady).2 =
        (if b.flushCallback then [tabletResolutionFailedStatus] else []) ∧
      tabletResolutionFailedStatus.code = ErrorCode.Aborted ∧
      tabletResolutionFailedStatus.clientError =
        some ClientErrorCode.kAbortedBatchDueToFailedTabletLookup ∧
      ShouldSessionRetryError tabletResolutionFailedStatus = true) ∧
    (b.opsQueue.isEmpty = true →
      (b.FlushBuffersIfReady).1.state = BatcherState.kTransactionReady ∧
      (b.FlushBuffersIfReady).2 = []) := by
  by_cases hq : b.opsQueue.isEmpty
  · have hfb : b.FlushBuffersIfReady =
        ({ b with state := BatcherState.kTransactionReady }, []) := by
      unfold Batcher.FlushBuffersIfReady
      rw [if_neg (by simp [h1]), if_neg (by simp [h2]), if_pos hq]
    refine ⟨by rw [hfb], ?_, fun _ => by rw [hfb]; exact ⟨rfl, rfl⟩⟩
    intro hq2
    rw [hq] at hq2
    cases hq2
  · obtain ⟨ops, ec, ce, sm, he, ha⟩ :=
      Abort_spec { b with state := BatcherState.kTransactionPrepare }
        tabletResolutionFailedStatus
    have hfb : b.FlushBuffersIfReady =
        ({ b with state := BatcherState.kTransactionPrepare } : Batcher).Abort
          tabletResolutionFailedStatus := by
      unfold Batcher.FlushBuffersIfReady
      rw [if_neg (by simp [h1]), if_neg (by simp [h2]), if_neg hq]
      simp only [h3, ite_true]
    refine ⟨by rw [hfb, ha], ?_, fun hq2 => absurd hq2 hq⟩
    intro _
    refine ⟨by rw [hfb, ha], by rw [hfb, ha], rfl, rfl, rfl⟩

/-- Witness for C3 (amended) at a concrete input: a resolving batcher with a
failed lookup recorded and one buffered op aborts with the retriable
lookup-failure status and sends no RPC. -/
theorem c3_witness :
    (({ initialBatcher false false with
          state := BatcherState.kResolvingTablets
          flushCallback := true
          hadErrors := true
          ops := [testInFlightOp]
          opsQueue := [testInFlightOp] } : Batcher).FlushBuffersIfReady).1.sentRpcs =
      ({ initialBatcher false false with
          state := BatcherState.kResolvingTablets
          flushCallback := true
          hadErrors := true
          ops := [testInFlightOp]
          opsQueue := [testInFlightOp] } : Batcher).sentRpcs ∧
    (({ initialBatcher false false with
          state := BatcherState.kResolvingTablets
          flushCallback := true
          hadErrors := true
          ops := [testInFlightOp]
          opsQueue := [testInFlightOp] } : Batcher).FlushBuffersIfReady).1.state =
      BatcherState.kAborted :=
  ⟨(c3_amended _ rfl rfl rfl).1, ((c3_amended _ rfl rfl rfl).2.1 (by decide)).1⟩

/-- C5 counterexample: the claim asserts that any batch whose queue holds an
op with a stale recorded partition-list version is aborted with
*TablePartitionListVersionDoesNotMatch*.  But `FlushBuffersIfReady` checks
`had_errors_` first: a batch that also saw a lookup failure is aborted with
*AbortedBatchDueToFailedTabletLookup* instead — here op 0's lookup fails and
op 1 is buffered with recorded version 3 against tablet version 4, yet the
delivered status carries the lookup-failure code, not the version-mismatch
code.  (No RPC is sent.) -/
theorem c5_counterexample :
    (runEvents (initialBatcher false false)
      [BatcherEvent.add testWriteOp, BatcherEvent.add testStaleVersionOp,
       BatcherEvent.flushAsync,
       BatcherEvent.lookupDone 0 (Except.error testNotFoundStatus),
       BatcherEvent.lookupDone 1 (Except.ok testTabletV4)]).2 =
      [tabletResolutionFailedStatus] ∧
    (runEvents (initialBatcher false false)
      [BatcherEvent.add testWriteOp, BatcherEvent.add testStaleVersionOp,
       BatcherEvent.flushAsync,
       BatcherEvent.lookupDone 0 (Except.error testNotFoundStatus),
       BatcherEvent.lookupDone 1 (Except.ok testTabletV4)]).1.opsQueue.any
        versionMismatch = true ∧
    (∀ s ∈ (runEvents (initialBatcher false false)
      [BatcherEvent.add testWriteOp, BatcherEvent.add testStaleVersionOp,
       BatcherEvent.flushAsync,
       BatcherEvent.lookupDone 0 (Except.error testNotFoundStatus),
       BatcherEvent.lookupDone 1 (Except.ok testTabletV4)]).2,
      s.clientError ≠ some ClientErrorCode.kTablePartitionListVersionDoesNotMatch) := by
  decide

/-- C5 (amended): at readiness with no lookup errors (`had_errors_` unset —
otherwise the batch aborts with *AbortedBatchDueToFailedTabletLookup*
first), if any op in `ops_queue` has a recorded partition-list version that
is present and differs from its resolved tablet's current version, the whole
batch is aborted with an Aborted status carrying
*TablePartitionListVersionDoesNotMatch* and no RPC is sent. -/
theorem c5_amended (b : Batcher)
    (h1 : b.outstandingLookups = 0)
    (h2 : b.state = BatcherState.kResolvingTablets)
    (h3 : b.hadErrors = false)
    (h4 : ∃ op ∈ b.opsQueue, versionMismatch op = true) :
    (b.FlushBuffersIfReady).1.state = BatcherState.kAborted ∧
    (b.FlushBuffersIfReady).1.sentRpcs = b.sentRpcs ∧
    (b.FlushBuffersIfReady).2 =
      (if b.flushCallback then [partitionListVersionMismatchStatus] else []) ∧
    partitionListVersionMismatchStatus.code = ErrorCode.Aborted ∧
    partitionListVersionMismatchStatus.clientError =
      some ClientErrorCode.kTablePartitionListVersionDoesNotMatch := by
  have hq : ¬ b.opsQueue.isEmpty = true := by
    obtain ⟨op, hmem, _⟩ := h4
    intro hcon
    rw [List.isEmpty_iff] at hcon
    rw [hcon] at hmem
    cases hmem
  have hmk : makeGroups (sortOps b.opsQueue) = .error partitionListVersionMismatchStatus := by
    obtain ⟨op, hmem, hv⟩ := h4
    exact makeGroups_error_of_mismatch _
      ⟨op, ((sortOps_perm b.opsQueue).mem_iff).mpr hmem, hv⟩
  obtain ⟨ops, ec, ce, sm, he, ha⟩ :=
    Abort_spec
      { b with
          state := BatcherState.kTransactionPrepare
          opsQueue := sortOps b.opsQueue }
      partitionListVersionMismatchStatus
  have hfb : b.FlushBuffersIfReady =
      ({ b with
           state := BatcherState.kTransactionPrepare
           opsQueue := sortOps b.opsQueue } : Batcher).Abort
        partitionListVersionMismatchStatus := by
    unfold Batcher.FlushBuffersIfReady
    rw [if_neg (by simp [h1]), if_neg (by simp [h2]), if_neg hq]
    simp only [h3, Bool.false_eq_true, ite_false, hmk]
  exact ⟨by rw [hfb, ha], by rw [hfb, ha], by rw [hfb, ha], rfl, rfl⟩

/-- Witness for C5 (amended) at a concrete input: a resolving batcher with a
clean lookup history and a buffered op recording version 3 against tablet
version 4 aborts with the version-mismatch status and sends no RPC. -/
theorem c5_witness :
    (({ initialBatcher false false with
          state := BatcherState.kResolvingTablets
          flushCallback := true
          ops := [testMismatchInFlightOp]
          opsQueue := [testMismatchInFlightOp] } : Batcher).FlushBuffersIfReady).1.state =
      BatcherState.kAborted ∧
    (({ initialBatcher false false with
          state := BatcherState.kResolvingTablets
          flushCallback := true
          ops := [testMismatchInFlightOp]
          opsQueue := [testMismatchInFlightOp] } : Batcher).FlushBuffersIfReady).2 =
      [partitionListVersionMismatchStatus] :=
  ⟨(c5_amended _ rfl rfl rfl (by decide)).1,
   (c5_amended _ rfl rfl rfl (by decide)).2.2.1⟩

theorem OpGroup.toNat_inj (a b : OpGroup) : a.toNat = b.toNat ↔ a = b := by
  cases a <;> cases b <;> decide

theorem opLt_iff (a b : InFlightOp) : opLt a b = true ↔ opKeyLt a b := by
  unfold opLt opKeyLt
  by_cases h1 : a.tabletId = b.tabletId
  · by_cases h2 : a.ybOp.group = b.ybOp.group
    · have hn : a.ybOp.group.toNat = b.ybOp.group.toNat := by rw [h2]
      simp [h1, h2, hn]
    · have hn : ¬ a.ybOp.group.toNat = b.ybOp.group.toNat :=
        fun hc => h2 ((OpGroup.toNat_inj _ _).mp hc)
      simp [h1, h2, hn]
  · simp [h1]

theorem opKeyLt_asymm (a b : InFlightOp) (h : opKeyLt a b) : ¬ opKeyLt b a := by
  unfold opKeyLt at *
  omega

theorem opKeyLt_trans (a b c : InFlightOp) (h1 : opKeyLt a b) (h2 : opKeyLt b c) :
    opKeyLt a c := by
  unfold opKeyLt at *
  omega

theorem insertSorted_pairwise (a : InFlightOp) (l : List InFlightOp)
    (h : l.Pairwise opSortedLe) : (insertSorted a l).Pairwise opSortedLe := by
  induction l with
  | nil => simp [insertSorted]
  | cons b l ih =>
    rw [List.pairwise_cons] at h
    obtain ⟨hb, hl⟩ := h
    unfold insertSorted
    by_cases hab : opLt a b = true
    · rw [if_pos hab]
      have hkab : opKeyLt a b := (opLt_iff a b).mp hab
      refine List.Pairwise.cons ?_ (List.Pairwise.cons hb hl)
      intro c hc
      rcases List.mem_cons.mp hc with rfl | hcl
      · exact fun h2 => opKeyLt_asymm a c hkab h2
      · intro hca
        exact hb c hcl (opKeyLt_trans c a b hca hkab)
    · rw [if_neg hab]
      refine List.Pairwise.cons ?_ (ih hl)
      intro c hc
      have hc2 := (insertSorted_perm a l).mem_iff.mp hc
      rcases List.mem_cons.mp hc2 with rfl | hcl
      · exact fun h2 => hab ((opLt_iff _ _).mpr h2)
      · exact hb c hcl

theorem sortOps_pairwise (l : List InFlightOp) : (sortOps l).Pairwise opSortedLe := by
  induction l with
  | nil => exact List.Pairwise.nil
  | cons a l ih => exact insertSorted_pairwise a (sortOps l) ih

theorem groupsLoop_join (cur : List InFlightOp) (t : Nat) (g : OpGroup)
    (l : List InFlightOp) (gs : List (List InFlightOp))
    (h : groupsLoop cur t g l = .ok gs) : gs.flatten = cur ++ l := by
  induction l generalizing cur t g gs with
  | nil =>
    rw [groupsLoop] at h
    cases h
    simp
  | cons op rest ih =>
    rw [groupsLoop] at h
    by_cases h1 : versionMismatch op
    · rw [if_pos h1] at h; cases h
    · rw [if_neg h1] at h
      by_cases h2 : t ≠ op.tabletId ∨ g ≠ op.ybOp.group
      · rw [if_pos h2] at h
        cases hrec : groupsLoop [op] op.tabletId op.ybOp.group rest with
        | error e => rw [hrec] at h; cases h
        | ok gs2 =>
          rw [hrec] at h
          cases h
          have hj := ih _ _ _ _ hrec
          simp [hj]
      · rw [if_neg h2] at h
        have hj := ih _ _ _ _ h
        simpa using hj

theorem groupsLoop_nonempty (cur : List InFlightOp) (t : Nat) (g : OpGroup)
    (l : List InFlightOp) (gs : List (List InFlightOp))
    (h : groupsLoop cur t g l = .ok gs) (hcur : cur ≠ []) :
    ∀ grp ∈ gs, grp ≠ [] := by
  induction l generalizing cur t g gs with
  | nil =>
    rw [groupsLoop] at h
    cases h
    intro grp hgrp
    rcases List.mem_singleton.mp hgrp with rfl
    exact hcur
  | cons op rest ih =>
    rw [groupsLoop] at h
    by_cases h1 : versionMismatch op
    · rw [if_pos h1] at h; cases h
    · rw [if_neg h1] at h
      by_cases h2 : t ≠ op.tabletId ∨ g ≠ op.ybOp.group
      · rw [if_pos h2] at h
        cases hrec : groupsLoop [op] op.tabletId op.ybOp.group rest with
        | error e => rw [hrec] at h; cases h
        | ok gs2 =>
          rw [hrec] at h
          cases h
          intro grp hgrp
          rcases List.mem_cons.mp hgrp with rfl | hgrp2
          · exact hcur
          · exact ih _ _ _ _ hrec (by simp) grp hgrp2
      · rw [if_neg h2] at h
        exact ih _ _ _ _ h (by simp [hcur])

theorem groupsLoop_sameKey (cur : List InFlightOp) (t : Nat) (g : OpGroup)
    (l : List InFlightOp) (gs : List (List InFlightOp))
    (h : groupsLoop cur t g l = .ok gs)
    (hcur : ∀ x ∈ cur, x.tabletId = t ∧ x.ybOp.group = g) :
    ∀ grp ∈ gs, ∀ x ∈ grp, ∀ y ∈ grp,
      x.tabletId = y.tabletId ∧ x.ybOp.group = y.ybOp.group := by
  induction l generalizing cur t g gs with
  | nil =>
    rw [groupsLoop] at h
    cases h
    intro grp hgrp x hx y hy
    rcases List.mem_singleton.mp hgrp with rfl
    obtain ⟨hx1, hx2⟩ := hcur x hx
    obtain ⟨hy1, hy2⟩ := hcur y hy
    rw [hx1, hy1, hx2, hy2]
    exact ⟨rfl, rfl⟩
  | cons op rest ih =>
    rw [groupsLoop] at h
    by_cases h1 : versionMismatch op
    · rw [if_pos h1] at h; cases h
    · rw [if_neg h1] at h
      by_cases h2 : t ≠ op.tabletId ∨ g ≠ op.ybOp.group
      · rw [if_pos h2] at h
        cases hrec : groupsLoop [op] op.tabletId op.ybOp.group rest with
        | error e => rw [hrec] at h; cases h
        | ok gs2 =>
          rw [hrec] at h
          cases h
          intro grp hgrp x hx y hy
          rcases List.mem_cons.mp hgrp with rfl | hgrp2
          · obtain ⟨hx1, hx2⟩ := hcur x hx
            obtain ⟨hy1, hy2⟩ := hcur y hy
            rw [hx1, hy1, hx2, hy2]
            exact ⟨rfl, rfl⟩
          · refine ih _ _ _ _ hrec ?_ grp hgrp2 x hx y hy
            intro z hz
            rcases List.mem_singleton.mp hz with rfl
            exact ⟨rfl, rfl⟩
      · rw [if_neg h2] at h
        push_neg at h2
        refine ih _ _ _ _ h ?_
        intro z hz
        rcases List.mem_append.mp hz with hz2 | hz2
        · exact hcur z hz2
        · rcases List.mem_singleton.mp hz2 with rfl
          exact ⟨h2.1.symm, h2.2.symm⟩

theorem groupsLoop_first_group (cur : List InFlightOp) (t : Nat) (g : OpGroup)
    (l : List InFlightOp) (gs : List (List InFlightOp))
    (h : groupsLoop cur t g l = .ok gs) :
    ∃ ext gs2, gs = (cur ++ ext) :: gs2 := by
  induction l generalizing cur t g gs with
  | nil =>
    rw [groupsLoop] at h
    cases h
    exact ⟨[], [], by simp⟩
  | cons op rest ih =>
    rw [groupsLoop] at h
    by_cases h1 : versionMismatch op
    · rw [if_pos h1] at h; cases h
    · rw [if_neg h1] at h
      by_cases h2 : t ≠ op.tabletId ∨ g ≠ op.ybOp.group
      · rw [if_pos h2] at h
        cases hrec : groupsLoop [op] op.tabletId op.ybOp.group rest with
        | error e => rw [hrec] at h; cases h
        | ok gs2 =>
          rw [hrec] at h
          cases h
          exact ⟨[], gs2, by simp⟩
      · rw [if_neg h2] at h
        obtain ⟨ext, gs2, hgs⟩ := ih _ _ _ _ h
        exact ⟨op :: ext, gs2, by simpa using hgs⟩

theorem mem_of_getLast?_eq {l : List InFlightOp} {x : InFlightOp}
    (h : l.getLast? = some x) : x ∈ l := by
  have hx : x ∈ l.getLast? := h
  obtain ⟨hne, rfl⟩ := List.mem_getLast?_eq_getLast hx
  exact List.getLast_mem hne

theorem groupsLoop_boundaries (cur : List InFlightOp) (t : Nat) (g : OpGroup)
    (l : List InFlightOp) (gs : List (List InFlightOp))
    (h : groupsLoop cur t g l = .ok gs)
    (hcur : ∀ x ∈ cur, x.tabletId = t ∧ x.ybOp.group = g) :
    List.Chain' boundaryRel gs := by
  induction l generalizing cur t g gs with
  | nil =>
    rw [groupsLoop] at h
    cases h
    exact List.chain'_singleton cur
  | cons op rest ih =>
    rw [groupsLoop] at h
    by_cases h1 : versionMismatch op
    · rw [if_pos h1] at h; cases h
    · rw [if_neg h1] at h
      by_cases h2 : t ≠ op.tabletId ∨ g ≠ op.ybOp.group
      · rw [if_pos h2] at h
        cases hrec : groupsLoop [op] op.tabletId op.ybOp.group rest with
        | error e => rw [hrec] at h; cases h
        | ok gs2 =>
          rw [hrec] at h
          cases h
          have hchain2 : List.Chain' boundaryRel gs2 := by
            refine ih _ _ _ _ hrec ?_
            intro z hz
            rcases List.mem_singleton.mp hz with rfl
            exact ⟨rfl, rfl⟩
          refine List.chain'_cons'.2 ⟨?_, hchain2⟩
          intro grp2 hgrp2
          obtain ⟨ext, gs3, hgs2⟩ := groupsLoop_first_group _ _ _ _ _ hrec
          intro x y hx hy
          rw [hgs2] at hgrp2
          simp only [List.head?_cons, Option.mem_def, Option.some.injEq] at hgrp2
          subst hgrp2
          simp only [List.cons_append, List.head?_cons, Option.some.injEq] at hy
          subst hy
          obtain ⟨hx1, hx2⟩ := hcur x (mem_of_getLast?_eq hx)
          intro ⟨he1, he2⟩
          rcases h2 with h2 | h2
          · exact h2 (by rw [← hx1, he1])
          · exact h2 (by rw [← hx2, he2])
      · rw [if_neg h2] at h
        push_neg at h2
        refine ih _ _ _ _ h ?_
        intro z hz
        rcases List.mem_append.mp hz with hz2 | hz2
        · exact hcur z hz2
        · rcases List.mem_singleton.mp hz2 with rfl
          exact ⟨h2.1.symm, h2.2.symm⟩

theorem makeGroups_join (l : List InFlightOp) (gs : List (List InFlightOp))
    (h : makeGroups l = .ok gs) : gs.flatten = l := by
  cases l with
  | nil => rw [makeGroups] at h; cases h; rfl
  | cons op rest =>
    rw [makeGroups] at h
    by_cases h1 : versionMismatch op
    · rw [if_pos h1] at h; cases h
    · rw [if_neg h1] at h
      exact groupsLoop_join _ _ _ _ _ h

theorem makeGroups_nonempty (l : List InFlightOp) (gs : List (List InFlightOp))
    (h : makeGroups l = .ok gs) : ∀ grp ∈ gs, grp ≠ [] := by
  cases l with
  | nil => rw [makeGroups] at h; cases h; intro grp hgrp; cases hgrp
  | cons op rest =>
    rw [makeGroups] at h
    by_cases h1 : versionMismatch op
    · rw [if_pos h1] at h; cases h
    · rw [if_neg h1] at h
      exact groupsLoop_nonempty _ _ _ _ _ h (by simp)

theorem makeGroups_sameKey (l : List InFlightOp) (gs : List (List InFlightOp))
    (h : makeGroups l = .ok gs) :
    ∀ grp ∈ gs, ∀ x ∈ grp, ∀ y ∈ grp,
      x.tabletId = y.tabletId ∧ x.ybOp.group = y.ybOp.group := by
  cases l with
  | nil => rw [makeGroups] at h; cases h; intro grp hgrp; cases hgrp
  | cons op rest =>
    rw [makeGroups] at h
    by_cases h1 : versionMismatch op
    · rw [if_pos h1] at h; cases h
    · rw [if_neg h1] at h
      refine groupsLoop_sameKey _ _ _ _ _ h ?_
      intro z hz
      rcases List.mem_singleton.mp hz with rfl
      exact ⟨rfl, rfl⟩

theorem makeGroups_boundaries (l : List InFlightOp) (gs : List (List InFlightOp))
    (h : makeGroups l = .ok gs) : List.Chain' boundaryRel gs := by
  cases l with
  | nil => rw [makeGroups] at h; cases h; exact List.chain'_nil
  | cons op rest =>
    rw [makeGroups] at h
    by_cases h1 : versionMismatch op
    · rw [if_pos h1] at h; cases h
    · rw [if_neg h1] at h
      refine groupsLoop_boundaries _ _ _ _ _ h ?_
      intro z hz
      rcases List.mem_singleton.mp hz with rfl
      exact ⟨rfl, rfl⟩

theorem groups_pairwise_seq (l : List InFlightOp) (gs : List (List InFlightOp))
    (h : makeGroups (sortOps l) = .ok gs) :
    ∀ grp ∈ gs, grp.Pairwise (fun x y => x.sequenceNumber ≤ y.sequenceNumber) := by
  intro grp hgrp
  have hsub : List.Sublist grp gs.flatten := List.sublist_flatten_of_mem hgrp
  rw [makeGroups_join _ _ h] at hsub
  have hpw : grp.Pairwise opSortedLe := (sortOps_pairwise l).sublist hsub
  have hkey := makeGroups_sameKey _ _ h grp hgrp
  refine hpw.imp_of_mem ?_
  intro x y hx hy hle
  obtain ⟨ht, hg⟩ := hkey x hx y hy
  have hgn : x.ybOp.group.toNat = y.ybOp.group.toNat := by rw [hg]
  unfold opSortedLe opKeyLt at hle
  omega

theorem CallbackInv_initial (combineErrors forceRead : Bool) :
    CallbackInv (initialBatcher combineErrors forceRead) := by
  unfold CallbackInv initialBatcher
  simp

theorem Abort_acct (b : Batcher) (s : Status) (_h : CallbackInv b) :
    CallbackInv (b.Abort s).1 ∧
    (b.Abort s).1.flushRequested = b.flushRequested ∧
    (b.Abort s).2.length + cbTok (b.Abort s).1 = cbTok b := by
  obtain ⟨ops, ec, ce, sm, he, ha⟩ := Abort_spec b s
  rw [ha]
  refine ⟨?_, rfl, ?_⟩
  · unfold CallbackInv
    simp
  · unfold cbTok
    cases hcb : b.flushCallback <;> simp [hcb]

theorem CheckForFinishedFlush_acct (b : Batcher) (h : CallbackInv b) :
    CallbackInv (b.CheckForFinishedFlush).1 ∧
    (b.CheckForFinishedFlush).1.flushRequested = b.flushRequested ∧
    (b.CheckForFinishedFlush).2.length + cbTok (b.CheckForFinishedFlush).1 = cbTok b := by
  rcases CheckForFinishedFlush_cases b with hc | ⟨he, hst, hc⟩
  · rw [hc]
    exact ⟨h, rfl, by simp⟩
  · obtain ⟨h1, h2, h3, h4, h5⟩ := h
    have hcb : b.flushCallback = true := by
      apply h3
      rcases hst with hst | hst
      · exact Or.inl hst
      · exact Or.inr (Or.inr hst)
    have hfr : b.flushRequested = true := h1 hcb
    rw [hc]
    refine ⟨?_, rfl, ?_⟩
    · unfold CallbackInv
      simp [hfr]
    · simp [cbTok, hcb]

theorem ExecuteOperations_acct (b : Batcher) (h : CallbackInv b) :
    CallbackInv (b.ExecuteOperations).1 ∧
    (b.ExecuteOperations).1.flushRequested = b.flushRequested ∧
    (b.ExecuteOperations).2.length + cbTok (b.ExecuteOperations).1 = cbTok b := by
  obtain ⟨oq, sr, he⟩ := ExecuteOperations_spec b
  rw [he]
  refine ⟨?_, rfl, by simp [cbTok]⟩
  by_cases hp : b.state = BatcherState.kTransactionPrepare
  · obtain ⟨h1, h2, h3, h4, h5⟩ := h
    have hcb := h3 (Or.inr (Or.inl hp))
    have hfr := h1 hcb
    unfold CallbackInv
    simp [hp, hcb, hfr]
  · unfold CallbackInv at *
    simpa [hp] using h

theorem FlushBuffersIfReady_acct (b : Batcher) (h : CallbackInv b) :
    CallbackInv (b.FlushBuffersIfReady).1 ∧
    (b.FlushBuffersIfReady).1.flushRequested = b.flushRequested ∧
    (b.FlushBuffersIfReady).2.length + cbTok (b.FlushBuffersIfReady).1 = cbTok b := by
  unfold Batcher.FlushBuffersIfReady
  by_cases hc1 : b.outstandingLookups ≠ 0
  · rw [if_pos hc1]
    exact ⟨h, rfl, by simp⟩
  · rw [if_neg hc1]
    by_cases hc2 : b.state ≠ BatcherState.kResolvingTablets
    · rw [if_pos hc2]
      exact ⟨h, rfl, by simp⟩
    · rw [if_neg hc2]
      push_neg at hc2
      obtain ⟨h1, h2, h3, h4, h5⟩ := h
      have hcb : b.flushCallback = true := h3 (Or.inl hc2)
      have hfr : b.flushRequested = true := h1 hcb
      by_cases hc3 : b.opsQueue.isEmpty
      · rw [if_pos hc3]
        refine ⟨?_, rfl, by simp [cbTok]⟩
        unfold CallbackInv
        simp [hcb, hfr]
      · rw [if_neg hc3]
        have hinv1 : CallbackInv { b with state := BatcherState.kTransactionPrepare } := by
          unfold CallbackInv
          simp [hcb, hfr]
        dsimp only
        split
        · exact Abort_acct _ tabletResolutionFailedStatus hinv1
        · split
          · exact Abort_acct _ _ hinv1
          · exact ExecuteOperations_acct _ hinv1

theorem TabletLookupFinished_acct (b : Batcher) (op : InFlightOp)
    (res : Except Status RemoteTablet) (h : CallbackInv b) :
    CallbackInv (b.TabletLookupFinished op res).1 ∧
    (b.TabletLookupFinished op res).1.flushRequested = b.flushRequested ∧
    (b.TabletLookupFinished op res).2.length +
      cbTok (b.TabletLookupFinished op res).1 = cbTok b := by
  unfold Batcher.TabletLookupFinished
  dsimp only
  split
  · obtain ⟨ce, sm, hm⟩ :=
      MarkInFlightOpFailedUnlocked_eq
        { b with outstandingLookups := b.outstandingLookups - 1 } op batchAbortedStatus
    rw [hm]
    exact ⟨h, rfl, by simp [cbTok]⟩
  · split
    · exact ⟨h, rfl, by simp [cbTok]⟩
    · split
      · split
        · split
          · exact FlushBuffersIfReady_acct _ h
          · exact FlushBuffersIfReady_acct _ h
        · split
          · exact ⟨h, rfl, by simp [cbTok]⟩
          · exact ⟨h, rfl, by simp [cbTok]⟩
      · rename_i e heq
        have hinvM : CallbackInv
            (({ b with outstandingLookups := b.outstandingLookups - 1 } :
              Batcher).MarkInFlightOpFailedUnlocked op e) := by
          obtain ⟨ce, sm, hm⟩ :=
            MarkInFlightOpFailedUnlocked_eq
              { b with outstandingLookups := b.outstandingLookups - 1 } op e
          rw [hm]
          exact h
        have hfrM : (({ b with outstandingLookups := b.outstandingLookups - 1 } :
            Batcher).MarkInFlightOpFailedUnlocked op e).flushRequested =
            b.flushRequested := by
          obtain ⟨ce, sm, hm⟩ :=
            MarkInFlightOpFailedUnlocked_eq
              { b with outstandingLookups := b.outstandingLookups - 1 } op e
          rw [hm]
        have hbridge : cbTok
            (({ b with outstandingLookups := b.outstandingLookups - 1 } :
              Batcher).MarkInFlightOpFailedUnlocked op e) = cbTok b := by
          obtain ⟨ce, sm, hm⟩ :=
            MarkInFlightOpFailedUnlocked_eq
              { b with outstandingLookups := b.outstandingLookups - 1 } op e
          rw [hm]
          rfl
        have hc := CheckForFinishedFlush_acct _ hinvM
        split
        · have hf := FlushBuffersIfReady_acct _ hc.1
          refine ⟨hf.1, ?_, ?_⟩
          · rw [hf.2.1, hc.2.1, hfrM]
          · have h1 := hc.2.2
            have h2 := hf.2.2
            simp only [List.length_append]
            omega
        · refine ⟨hc.1, hc.2.1.trans hfrM, ?_⟩
          have h1 := hc.2.2
          omega

theorem Add_acct (b : Batcher) (ybOp : YBOperation) (h : CallbackInv b) :
    CallbackInv (b.Add ybOp).batcher ∧
    (b.Add ybOp).batcher.flushRequested = b.flushRequested ∧
    (b.Add ybOp).emitted.length + cbTok (b.Add ybOp).batcher = cbTok b := by
  unfold Batcher.Add
  dsimp only
  split
  · exact ⟨h, rfl, by simp [cbTok]⟩
  · split
    · exact ⟨h, rfl, by simp [cbTok]⟩
    · split
      · exact ⟨h, rfl, by simp [cbTok]⟩
      · split
        · exact ⟨(TabletLookupFinished_acct _ _ _ (by exact h)).1,
            (TabletLookupFinished_acct _ _ _ (by exact h)).2.1,
            (TabletLookupFinished_acct _ _ _ (by exact h)).2.2⟩
        · exact ⟨h, rfl, by simp [cbTok, Batcher.AddInFlightOp]⟩

theorem rpc_chain_acct (b b3 : Batcher) (h3 : CallbackInv b3)
    (hcb : b3.flushCallback = b.flushCallback)
    (hfr : b3.flushRequested = b.flushRequested) :
    CallbackInv (b3.CheckForFinishedFlush).1 ∧
    (b3.CheckForFinishedFlush).2.length + cbTok (b3.CheckForFinishedFlush).1 + frTok b =
      cbTok b + frTok (b3.CheckForFinishedFlush).1 := by
  have hc := CheckForFinishedFlush_acct b3 h3
  refine ⟨hc.1, ?_⟩
  have e1 := hc.2.2
  have e2 : frTok (b3.CheckForFinishedFlush).1 = frTok b := by
    unfold frTok
    rw [hc.2.1, hfr]
  have e3 : cbTok b3 = cbTok b := by
    unfold cbTok
    rw [hcb]
  omega

theorem stepEvent_acct (b : Batcher) (e : BatcherEvent) (h : CallbackInv b) :
    CallbackInv (stepEvent e b).1 ∧
    (stepEvent e b).2.length + cbTok (stepEvent e b).1 + frTok b =
      cbTok b + frTok (stepEvent e b).1 := by
  cases e with
  | add ybOp =>
    have ha := Add_acct b ybOp h
    simp only [stepEvent]
    try dsimp only
    refine ⟨ha.1, ?_⟩
    have e1 := ha.2.2
    have e2 : frTok (b.Add ybOp).batcher = frTok b := by
      unfold frTok
      rw [ha.2.1]
    omega
  | flushAsync =>
    simp only [stepEvent]
    unfold Batcher.FlushAsync
    split
    · exact ⟨h, by simp⟩
    · rename_i hg
      obtain ⟨h1, h2, h3, h4, h5⟩ := h
      obtain ⟨hcb, hfr⟩ := h2 (not_not.mp hg)
      have hinv1 : CallbackInv
          { b with
              state := BatcherState.kResolvingTablets
              flushCallback := true
              flushRequested := true } := by
        unfold CallbackInv
        simp
      have hc := CheckForFinishedFlush_acct _ hinv1
      have hf := FlushBuffersIfReady_acct _ hc.1
      try dsimp only
      refine ⟨hf.1, ?_⟩
      have e1 := hc.2.2
      have e2 := hf.2.2
      have e3 : cbTok
          ({ b with
              state := BatcherState.kResolvingTablets
              flushCallback := true
              flushRequested := true } : Batcher) = 1 := rfl
      have e4 : frTok
          ((({ b with
              state := BatcherState.kResolvingTablets
              flushCallback := true
              flushRequested := true } : Batcher).CheckForFinishedFlush).1.FlushBuffersIfReady).1
            = 1 := by
        unfold frTok
        rw [hf.2.1, hc.2.1]
        rfl
      have e5 : cbTok b = 0 := by simp [cbTok, hcb]
      have e6 : frTok b = 0 := by simp [frTok, hfr]
      simp only [List.length_append]
      omega
  | lookupDone opId resu =>
    simp only [stepEvent]
    split
    · split
      · rename_i op hfind
        have ht := TabletLookupFinished_acct
          { b with pendingLookups := b.pendingLookups.filter (fun x => x ≠ opId) }
          op resu (by exact h)
        try dsimp only
        refine ⟨ht.1, ?_⟩
        have e1 := ht.2.2
        have e2 : frTok
            (({ b with pendingLookups := b.pendingLookups.filter (fun x => x ≠ opId) } :
              Batcher).TabletLookupFinished op resu).1 = frTok b := by
          unfold frTok
          rw [ht.2.1]
        have e3 : cbTok
            ({ b with pendingLookups := b.pendingLookups.filter (fun x => x ≠ opId) } :
              Batcher) = cbTok b := rfl
        omega
      · exact ⟨h, by simp⟩
    · exact ⟨h, by simp⟩
  | rpcDone idx st perRow =>
    simp only [stepEvent]
    split
    · rename_i hlt
      split
      · exact ⟨h, by simp⟩
      · try dsimp only
        split
        · obtain ⟨ec, ce, he, hw⟩ :=
            ProcessWriteResponse_eq
              { b with completedRpcs := b.completedRpcs ++ [idx] }
              (b.sentRpcs.get ⟨idx, hlt⟩) st perRow
          refine rpc_chain_acct b _ ?_ ?_ ?_
          · rw [hw]
            exact h
          · rw [hw]
            rfl
          · rw [hw]
            rfl
        · obtain ⟨ec, ce, he, hw⟩ :=
            ProcessRpcStatus_eq
              { b with completedRpcs := b.completedRpcs ++ [idx] }
              (b.sentRpcs.get ⟨idx, hlt⟩) st
          refine rpc_chain_acct b _ ?_ ?_ ?_
          · rw [hw]
            exact h
          · rw [hw]
            rfl
          · rw [hw]
            rfl
    · exact ⟨h, by simp⟩
  | abort s =>
    simp only [stepEvent]
    have ha := Abort_acct b s h
    refine ⟨ha.1, ?_⟩
    have e1 := ha.2.2
    have e2 : frTok (b.Abort s).1 = frTok b := by
      unfold frTok
      rw [ha.2.1]
    omega

theorem runEvents_acct (es : List BatcherEvent) (b : Batcher) (h : CallbackInv b) :
    CallbackInv (runEvents b es).1 ∧
    (runEvents b es).2.length + cbTok (runEvents b es).1 + frTok b =
      cbTok b + frTok (runEvents b es).1 := by
  induction es generalizing b with
  | nil =>
    refine ⟨h, ?_⟩
    dsimp [runEvents]
    omega
  | cons e es ih =>
    have h1 := stepEvent_acct b e h
    have h2 := ih (stepEvent e b).1 h1.1
    simp only [runEvents]
    try dsimp only
    refine ⟨h2.1, ?_⟩
    have e1 := h1.2
    have e2 := h2.2
    simp only [List.length_append]
    omega

/-- C1: over every batcher lifecycle — any interleaving-free sequence of
`Add`, `FlushAsync`, lookup completions, RPC completions and `Abort` calls,
including repeated `Abort` and `Abort` racing natural completion — the
stored flush callback is invoked at most once; exactly once whenever a flush
was requested and the batcher reached a terminal state (`kComplete` or
`kAborted`); and never when no flush was requested (no callback was ever
stored).  Each invocation carries the concrete status computed at its call
site, so the delivered status is well-defined. -/
theorem c1_callback_exactly_once (combineErrors forceRead : Bool)
    (es : List BatcherEvent) :
    (runEvents (initialBatcher combineErrors forceRead) es).2.length ≤ 1 ∧
    ((runEvents (initialBatcher combineErrors forceRead) es).1.flushRequested = false →
      (runEvents (initialBatcher combineErrors forceRead) es).2 = []) ∧
    ((runEvents (initialBatcher combineErrors forceRead) es).1.flushRequested = true →
      ((runEvents (initialBatcher combineErrors forceRead) es).1.state =
          BatcherState.kComplete ∨
        (runEvents (initialBatcher combineErrors forceRead) es).1.state =
          BatcherState.kAborted) →
      (runEvents (initialBatcher combineErrors forceRead) es).2.length = 1) := by
  obtain ⟨hinv, hacct⟩ :=
    runEvents_acct es (initialBatcher combineErrors forceRead)
      (CallbackInv_initial combineErrors forceRead)
  have hc0 : cbTok (initialBatcher combineErrors forceRead) = 0 := rfl
  have hf0 : frTok (initialBatcher combineErrors forceRead) = 0 := rfl
  have hcbcases : cbTok (runEvents (initialBatcher combineErrors forceRead) es).1 = 0 ∨
      cbTok (runEvents (initialBatcher combineErrors forceRead) es).1 = 1 := by
    unfold cbTok
    split <;> simp
  have hfrcases : frTok (runEvents (initialBatcher combineErrors forceRead) es).1 = 0 ∨
      frTok (runEvents (initialBatcher combineErrors forceRead) es).1 = 1 := by
    unfold frTok
    split <;> simp
  refine ⟨by omega, ?_, ?_⟩
  · intro hfr
    have h0 : frTok (runEvents (initialBatcher combineErrors forceRead) es).1 = 0 := by
      simp [frTok, hfr]
    have hlen : (runEvents (initialBatcher combineErrors forceRead) es).2.length = 0 := by
      omega
    exact List.length_eq_zero.mp hlen
  · intro hfr hterm
    have h1 : frTok (runEvents (initialBatcher combineErrors forceRead) es).1 = 1 := by
      simp [frTok, hfr]
    have h2 : (runEvents (initialBatcher combineErrors forceRead) es).1.flushCallback =
        false := hinv.2.2.2.1 hterm
    have h3 : cbTok (runEvents (initialBatcher combineErrors forceRead) es).1 = 0 := by
      simp [cbTok, h2]
    omega

/-- Witness for C1 at a concrete lifecycle: an empty flush followed by an
abort racing the natural completion yields exactly one callback
invocation. -/
theorem c1_witness :
    (runEvents (initialBatcher false false)
      [BatcherEvent.flushAsync, BatcherEvent.abort testAbortStatus]).2.length = 1 :=
  (c1_callback_exactly_once false false
    [BatcherEvent.flushAsync, BatcherEvent.abort testAbortStatus]).2.2
    (by decide) (by decide)

/-- C2: at readiness with no errors, the batcher sorts `ops_queue` by
`(tablet, operation class, sequence number)` and partitions it into maximal
contiguous groups sharing `(tablet, operation class)`; the dispatched RPCs
carry exactly those groups in order, the groups concatenate back to the
sorted queue (a permutation of the original queue), every group is
non-empty and key-homogeneous, adjacent groups differ in key (maximality),
and within a group any op with a smaller sequence number precedes any op
with a larger one in that group's RPC. -/
theorem c2_sort_and_group (b : Batcher) (gs : List (List InFlightOp))
    (h1 : b.outstandingLookups = 0)
    (h2 : b.state = BatcherState.kResolvingTablets)
    (h3 : b.hadErrors = false)
    (h4 : b.opsQueue.isEmpty = false)
    (h5 : b.groups = [])
    (h6 : makeGroups (sortOps b.opsQueue) = .ok gs) :
    (b.FlushBuffersIfReady).1.sentRpcs =
      b.sentRpcs ++ gs.map (fun grp => CreateRpc grp
        (b.forceConsistentRead || decide (gs.length > 1))) ∧
    gs.flatten = sortOps b.opsQueue ∧
    List.Perm (sortOps b.opsQueue) b.opsQueue ∧
    (∀ grp ∈ gs, grp ≠ []) ∧
    (∀ grp ∈ gs, ∀ x ∈ grp, ∀ y ∈ grp,
      x.tabletId = y.tabletId ∧ x.ybOp.group = y.ybOp.group) ∧
    List.Chain' boundaryRel gs ∧
    (∀ grp ∈ gs, ∀ i j : Nat, ∀ hi : i < grp.length, ∀ hj : j < grp.length,
      (grp.get ⟨i, hi⟩).sequenceNumber < (grp.get ⟨j, hj⟩).sequenceNumber → i < j) := by
  have hqne : b.opsQueue ≠ [] := by
    intro hc
    rw [hc] at h4
    simp at h4
  have hsne : sortOps b.opsQueue ≠ [] := by
    intro hc
    have hp := sortOps_perm b.opsQueue
    rw [hc] at hp
    exact hqne hp.symm.eq_nil
  have hq3 : (sortOps b.opsQueue).isEmpty = false := by
    cases hx : (sortOps b.opsQueue).isEmpty
    · rfl
    · exact absurd (List.isEmpty_iff.mp hx) hsne
  have hfb : b.FlushBuffersIfReady =
      Batcher.ExecuteOperations
        { b with
            state := BatcherState.kTransactionPrepare
            opsQueue := sortOps b.opsQueue
            groups := b.groups ++ gs } := by
    unfold Batcher.FlushBuffersIfReady
    rw [if_neg (by simp [h1]), if_neg (by simp [h2]), if_neg (by simp [h4])]
    simp only [h3, Bool.false_eq_true, ite_false, h6]
  refine ⟨?_, makeGroups_join _ _ h6, sortOps_perm _, makeGroups_nonempty _ _ h6,
    makeGroups_sameKey _ _ h6, makeGroups_boundaries _ _ h6, ?_⟩
  · rw [hfb]
    simp [Batcher.ExecuteOperations, hq3, h5]
  · intro grp hgrp i j hi hj hlt
    have hpw := groups_pairwise_seq _ _ h6 grp hgrp
    by_contra hij
    push_neg at hij
    rcases Nat.eq_or_lt_of_le hij with heq | hlt2
    · subst heq
      exact absurd hlt (lt_irrefl _)
    · have hle := List.pairwise_iff_get.mp hpw ⟨j, hj⟩ ⟨i, hi⟩ hlt2
      omega

/-- Witness for C2 at a concrete input: three buffered writes on two tablets
arriving out of order are sorted and dispatched as two RPCs — tablet A
carries sequence numbers 0 then 2, tablet B carries 1. -/
theorem c2_witness :
    (testQueueBatcher.FlushBuffersIfReady).1.sentRpcs =
      testQueueBatcher.sentRpcs ++ testGroups.map (fun grp => CreateRpc grp
        (testQueueBatcher.forceConsistentRead || decide (testGroups.length > 1))) ∧
    testGroups.flatten = sortOps testQueueBatcher.opsQueue :=
  ⟨(c2_sort_and_group testQueueBatcher testGroups rfl rfl rfl (by decide) rfl
      (by decide)).1,
   (c2_sort_and_group testQueueBatcher testGroups rfl rfl rfl (by decide) rfl
      (by decide)).2.1⟩

/-- C8 counterexample: after an empty flush the batcher is `kComplete`, and a
subsequent `Abort` still unconditionally sets `state_ = kAborted`
(batcher.cc line 133), so `kComplete` is not preserved by every subsequent
operation — the claim that Complete is terminal "including Abort" fails. -/
theorem c8_counterexample :
    (runEvents (initialBatcher false false) [BatcherEvent.flushAsync]).1.state =
      BatcherState.kComplete ∧
    (runEvents (initialBatcher false false)
        [BatcherEvent.flushAsync, BatcherEvent.abort testAbortStatus]).1.state =
      BatcherState.kAborted := by
  decide

/-- C8 (amended): Aborted is terminal — once the state is `kAborted` no
event changes it.  Complete is terminal for every operation except `Abort`,
which drives the state to `kAborted` (without invoking the already-consumed
callback again — see the C1 theorem). -/
theorem c8_amended (b : Batcher) (e : BatcherEvent) :
    (b.state = BatcherState.kAborted →
      (stepEvent e b).1.state = BatcherState.kAborted) ∧
    (b.state = BatcherState.kComplete →
      (stepEvent e b).1.state = BatcherState.kComplete ∨
      (∃ s, e = BatcherEvent.abort s ∧
        (stepEvent e b).1.state = BatcherState.kAborted)) := by
  constructor
  · intro h
    rcases stepEvent_state_of_terminal b e (Or.inl h) with h2 | ⟨s, _, h2⟩
    · rw [h2]; exact h
    · exact h2
  · intro h
    rcases stepEvent_state_of_terminal b e (Or.inr h) with h2 | hr
    · left; rw [h2]; exact h
    · right; exact hr

/-- Witness for C8 (amended) at a concrete input: any event applied to an
aborted batcher leaves it aborted. -/
theorem c8_witness :
    (stepEvent BatcherEvent.flushAsync
      { initialBatcher false false with state := BatcherState.kAborted }).1.state =
      BatcherState.kAborted :=
  (c8_amended { initialBatcher false false with state := BatcherState.kAborted }
    BatcherEvent.flushAsync).1 rfl

end YBBatcher
